import Mathlib

/-!
Verification development for the FBX mesh extraction and GPU buffer assembly
pipeline (FBXReader_Mesh.cpp).

The C++ code is shallowly embedded: QVector becomes List, QHash becomes an
association list with the same key equality, glm vector components become
exact integers (the claims under study concern which values flow where and
how sizes/offsets are computed, not floating-point rounding), and the
stateful reader functions become pure state-passing functions.  Loops are
expressed with an explicit fuel argument so that all definitions compute by
kernel reduction; the top-level wrappers supply fuel that dominates the
loop bounds of the C++ code (each loop strictly advances an index bounded
by the polygon stream length).
-/

/-- Component-wise integer 2-vector, standing for glm::vec2. -/
structure Vec2 where
  x : Int
  y : Int
  deriving DecidableEq, Repr

/-- Component-wise integer 3-vector, standing for glm::vec3. -/
structure Vec3 where
  x : Int
  y : Int
  z : Int
  deriving DecidableEq, Repr

/-- Component-wise integer 4-vector, standing for glm::vec4. -/
structure Vec4 where
  x : Int
  y : Int
  z : Int
  w : Int
  deriving DecidableEq, Repr

def Vec2.zero : Vec2 := ⟨0, 0⟩

def Vec3.zero : Vec3 := ⟨0, 0, 0⟩

def Vec4.zero : Vec4 := ⟨0, 0, 0, 0⟩

instance : Add Vec3 := ⟨fun a b => ⟨a.x + b.x, a.y + b.y, a.z + b.z⟩⟩

/-- glm::vec3(color): drop the w component of a vec4. -/
def Vec4.toVec3 (v : Vec4) : Vec3 := ⟨v.x, v.y, v.z⟩

/-- The dedup hash key (class Vertex, FBXReader_Mesh.cpp lines 41-54):
operator== compares originalIndex, texCoord and texCoord1. -/
structure Vertex where
  originalIndex : Nat
  texCoord : Vec2
  texCoord1 : Vec2
  deriving DecidableEq, Repr

/-- One UV channel (class AttributeData). -/
structure AttributeData where
  texCoords : List Vec2
  texCoordIndices : List Int
  name : String
  index : Int
  deriving DecidableEq, Repr

def AttributeData.empty : AttributeData := ⟨[], [], "", 0⟩

/-- The read-only source arrays of class MeshData that appendIndex consults
(vertices, polygonIndices, normals and their addressing mode, colors,
texCoords, and the UV attribute channels). -/
structure MeshSource where
  vertices : List Vec3
  polygonIndices : List Int
  normalsByVertex : Bool
  normals : List Vec3
  normalIndices : List Int
  colorsByVertex : Bool
  colors : List Vec4
  colorIndices : List Int
  texCoords : List Vec2
  texCoordIndices : List Int
  attributes : List AttributeData
  deriving DecidableEq, Repr

/-- The mutable extraction state of class MeshData: the growing
ExtractedMesh arrays, the newIndices map, and the QHash<Vertex, int>
dedup index (modelled as an association list; keys are never inserted
twice, so first-match lookup coincides with QHash lookup). -/
structure ExtractedAcc where
  vertices : List Vec3
  normals : List Vec3
  texCoords : List Vec2
  texCoords1 : List Vec2
  colors : List Vec3
  newIndices : List (Nat × Nat)
  keyIndices : List (Vertex × Nat)
  deriving DecidableEq, Repr

def ExtractedAcc.empty : ExtractedAcc := ⟨[], [], [], [], [], [], []⟩

/-- QHash<Vertex, int>::find modelled on the association list. -/
def lookupKey : List (Vertex × Nat) → Vertex → Option Nat
  | [], _ => none
  | (k, v) :: rest, key => if key = k then some v else lookupKey rest key

/-- Decode a polygon-stream entry: a negative value encodes vertex
-value - 1 (appendIndex lines 91-94). -/
def decodeVertexIndex (raw : Int) : Nat :=
  if raw < 0 then (-raw - 1).toNat else raw.toNat

/-- Position resolution (appendIndex lines 98-101): zero when the source
vertex index is out of range. -/
def resolvePosition (src : MeshSource) (vertexIndex : Nat) : Vec3 :=
  if vertexIndex < src.vertices.length then src.vertices.getD vertexIndex Vec3.zero
  else Vec3.zero

/-- Normal resolution (appendIndex lines 103-114): choose the address by
vertex or by corner, optionally translate through the normal index
array, out-of-range yields the zero normal. -/
def resolveNormal (src : MeshSource) (vertexIndex index : Nat) : Vec3 :=
  let normalIndex := if src.normalsByVertex then vertexIndex else index
  if src.normalIndices = [] then
    if normalIndex < src.normals.length then src.normals.getD normalIndex Vec3.zero
    else Vec3.zero
  else if normalIndex < src.normalIndices.length then
    let translated := src.normalIndices.getD normalIndex 0
    if 0 ≤ translated ∧ translated < src.normals.length then
      src.normals.getD translated.toNat Vec3.zero
    else Vec3.zero
  else Vec3.zero

/-- Color resolution (appendIndex lines 117-131), used only when the
source carries more than one color entry. -/
def resolveColor (src : MeshSource) (vertexIndex index : Nat) : Vec4 :=
  let colorIndex := if src.colorsByVertex then vertexIndex else index
  if src.colorIndices = [] then
    if colorIndex < src.colors.length then src.colors.getD colorIndex Vec4.zero
    else Vec4.zero
  else if colorIndex < src.colorIndices.length then
    let translated := src.colorIndices.getD colorIndex 0
    if 0 ≤ translated ∧ translated < src.colors.length then
      src.colors.getD translated.toNat Vec4.zero
    else Vec4.zero
  else Vec4.zero

/-- Primary UV resolution (appendIndex lines 133-142): corner-addressed,
optionally through the UV index array. -/
def resolveTexCoord (src : MeshSource) (index : Nat) : Vec2 :=
  if src.texCoordIndices = [] then
    if index < src.texCoords.length then src.texCoords.getD index Vec2.zero
    else Vec2.zero
  else if index < src.texCoordIndices.length then
    let translated := src.texCoordIndices.getD index 0
    if 0 ≤ translated ∧ translated < src.texCoords.length then
      src.texCoords.getD translated.toNat Vec2.zero
    else Vec2.zero
  else Vec2.zero

/-- Secondary UV resolution (appendIndex lines 144-156), against
attribute channel 1. -/
def resolveTexCoord1 (src : MeshSource) (index : Nat) : Vec2 :=
  let attrib := src.attributes.getD 1 AttributeData.empty
  if attrib.texCoordIndices = [] then
    if index < attrib.texCoords.length then attrib.texCoords.getD index Vec2.zero
    else Vec2.zero
  else if index < attrib.texCoordIndices.length then
    let translated := attrib.texCoordIndices.getD index 0
    if 0 ≤ translated ∧ translated < attrib.texCoords.length then
      attrib.texCoords.getD translated.toNat Vec2.zero
    else Vec2.zero
  else Vec2.zero

/-- The identity key a corner resolves to: (decoded source vertex index,
resolved primary UV, resolved secondary UV).  texCoord1 keeps its
zero-initialized value when there is no second UV channel
(hasMoreTexcoords is data.attributes.size() > 1). -/
def cornerVertex (src : MeshSource) (index : Nat) : Vertex :=
  { originalIndex := decodeVertexIndex (src.polygonIndices.getD index 0),
    texCoord := resolveTexCoord src index,
    texCoord1 := if 1 < src.attributes.length then resolveTexCoord1 src index else Vec2.zero }

/-- The normal a corner resolves to. -/
def cornerNormal (src : MeshSource) (index : Nat) : Vec3 :=
  resolveNormal src (decodeVertexIndex (src.polygonIndices.getD index 0)) index

/-- l.set k (l[k] + v): the `+=` into the stored normal of an existing
output vertex (appendIndex line 175). -/
def addAt (l : List Vec3) (k : Nat) (v : Vec3) : List Vec3 :=
  l.set k (l.getD k Vec3.zero + v)

/-- appendIndex (FBXReader_Mesh.cpp lines 87-177).  Takes the extraction
state and the per-part index list being appended to; returns both
updated.  Mirrors the source: early return when the corner position is
past the polygon stream; on a dedup miss a new output vertex is appended
(position, normal, primary UV always; color only when the source has
more than one color entry; secondary UV only when a second UV channel
exists) and the key is recorded; on a hit the existing index is reused
and the resolved normal is added into the stored normal. -/
def appendIndex (src : MeshSource) (acc : ExtractedAcc) (indices : List Nat) (index : Nat) :
    ExtractedAcc × List Nat :=
  if src.polygonIndices.length ≤ index then (acc, indices)
  else
    let vertexIndex := decodeVertexIndex (src.polygonIndices.getD index 0)
    let position := resolvePosition src vertexIndex
    let normal := resolveNormal src vertexIndex index
    let hasColors := 1 < src.colors.length
    let color := if hasColors then resolveColor src vertexIndex index else Vec4.zero
    let hasMoreTexcoords := 1 < src.attributes.length
    let vertex := cornerVertex src index
    match lookupKey acc.keyIndices vertex with
    | none =>
        let newIndex := acc.vertices.length
        ({ vertices := acc.vertices ++ [position],
           normals := acc.normals ++ [normal],
           texCoords := acc.texCoords ++ [vertex.texCoord],
           texCoords1 := if hasMoreTexcoords then acc.texCoords1 ++ [vertex.texCoord1]
                         else acc.texCoords1,
           colors := if hasColors then acc.colors ++ [color.toVec3] else acc.colors,
           newIndices := (vertexIndex, newIndex) :: acc.newIndices,
           keyIndices := acc.keyIndices ++ [(vertex, newIndex)] },
         indices ++ [newIndex])
    | some existing =>
        ({ acc with normals := addAt acc.normals existing (cornerNormal src index) },
         indices ++ [existing])

/-- The output index appendIndex assigns to a corner given the current
state: the stored index on a dedup hit, the next fresh index on a miss. -/
def appendOut (src : MeshSource) (acc : ExtractedAcc) (index : Nat) : Nat :=
  match lookupKey acc.keyIndices (cornerVertex src index) with
  | some existing => existing
  | none => acc.vertices.length

/-- The state appendIndex leaves behind (the indices list projected away). -/
def appendAcc (src : MeshSource) (acc : ExtractedAcc) (index : Nat) : ExtractedAcc :=
  (appendIndex src acc [] index).1

/-- Process a list of corner positions through appendIndex, collecting
every assigned output index in order. -/
def runAppend (src : MeshSource) : ExtractedAcc → List Nat → List Nat → ExtractedAcc × List Nat
  | acc, out, [] => (acc, out)
  | acc, out, c :: cs =>
      runAppend src (appendIndex src acc out c).1 (appendIndex src acc out c).2 cs

/-! ### Helper lemmas for the dedup index -/

lemma Vec3.zero_add (v : Vec3) : Vec3.zero + v = v := by
  obtain ⟨x, y, z⟩ := v
  show Vec3.mk (0 + x) (0 + y) (0 + z) = Vec3.mk x y z
  simp

lemma lookupKey_append (l : List (Vertex × Nat)) (k : Vertex) (v : Nat) (key : Vertex) :
    lookupKey (l ++ [(k, v)]) key =
      match lookupKey l key with
      | some w => some w
      | none => if key = k then some v else none := by
  induction l with
  | nil => simp [lookupKey]
  | cons p rest ih =>
      obtain ⟨k0, v0⟩ := p
      by_cases h : key = k0 <;> simp [lookupKey, h, ih]

lemma getD_concat_self (l : List α) (a d : α) : (l ++ [a]).getD l.length d = a := by
  rw [List.getD_eq_getElem (l ++ [a]) d (by simp)]
  simp

/-- appendIndex on a dedup miss, written out explicitly. -/
lemma appendIndex_miss (src : MeshSource) (acc : ExtractedAcc) (indices : List Nat) (index : Nat)
    (h : index < src.polygonIndices.length)
    (hm : lookupKey acc.keyIndices (cornerVertex src index) = none) :
    appendIndex src acc indices index =
      ({ vertices := acc.vertices ++
            [resolvePosition src (decodeVertexIndex (src.polygonIndices.getD index 0))],
         normals := acc.normals ++ [cornerNormal src index],
         texCoords := acc.texCoords ++ [(cornerVertex src index).texCoord],
         texCoords1 := if 1 < src.attributes.length then
             acc.texCoords1 ++ [(cornerVertex src index).texCoord1] else acc.texCoords1,
         colors := if 1 < src.colors.length then
             acc.colors ++
               [(resolveColor src (decodeVertexIndex (src.polygonIndices.getD index 0)) index).toVec3]
           else acc.colors,
         newIndices := (decodeVertexIndex (src.polygonIndices.getD index 0), acc.vertices.length)
             :: acc.newIndices,
         keyIndices := acc.keyIndices ++ [(cornerVertex src index, acc.vertices.length)] },
       indices ++ [acc.vertices.length]) := by
  unfold appendIndex
  rw [if_neg (by omega)]
  simp only [hm, cornerNormal]
  by_cases hc : 1 < src.colors.length <;> simp [hc]

/-- appendIndex on a dedup hit, written out explicitly. -/
lemma appendIndex_hit (src : MeshSource) (acc : ExtractedAcc) (indices : List Nat) (index k : Nat)
    (h : index < src.polygonIndices.length)
    (hm : lookupKey acc.keyIndices (cornerVertex src index) = some k) :
    appendIndex src acc indices index =
      ({ acc with normals := addAt acc.normals k (cornerNormal src index) }, indices ++ [k]) := by
  unfold appendIndex
  rw [if_neg (by omega)]
  simp only [hm, cornerNormal]

/-! ### The run invariant for C1 -/

/-- Well-formedness of the dedup state: looked-up indices are in range of
the output vertex array, distinct keys map to distinct indices, and the
normals array tracks the vertex array in length. -/
def goodAcc (acc : ExtractedAcc) : Prop :=
  acc.normals.length = acc.vertices.length ∧
  (∀ k v, lookupKey acc.keyIndices k = some v → v < acc.vertices.length) ∧
  (∀ k1 k2 v, lookupKey acc.keyIndices k1 = some v → lookupKey acc.keyIndices k2 = some v →
    k1 = k2)

/-- The sum of the resolved normals of all processed corners that were
assigned output index v. -/
def normalsSum (src : MeshSource) (corners out : List Nat) (v : Nat) : Vec3 :=
  ((corners.zip out).filter (fun p => p.2 == v)).foldl (fun a p => a + cornerNormal src p.1)
    Vec3.zero

/-- Invariant tying the dedup state to the corners processed so far and
the output indices they were assigned. -/
def runInv (src : MeshSource) (corners : List Nat) (acc : ExtractedAcc) (out : List Nat) : Prop :=
  out.length = corners.length ∧
  goodAcc acc ∧
  (∀ i, i < corners.length →
    lookupKey acc.keyIndices (cornerVertex src (corners.getD i 0)) = some (out.getD i 0)) ∧
  (∀ v, v < acc.vertices.length →
    acc.normals.getD v Vec3.zero = normalsSum src corners out v)

lemma runInv_empty (src : MeshSource) : runInv src [] ExtractedAcc.empty [] := by
  refine ⟨rfl, ⟨rfl, ?_, ?_⟩, ?_, ?_⟩ <;> intros <;> simp_all [ExtractedAcc.empty, lookupKey]

lemma out_lt_of_runInv {src corners acc out} (h : runInv src corners acc out)
    {x : Nat} (hx : x ∈ out) : x < acc.vertices.length := by
  obtain ⟨hlen, ⟨_, hbound, _⟩, hlook, _⟩ := h
  obtain ⟨i, hi, rfl⟩ := List.mem_iff_getElem.mp hx
  have hi2 : i < corners.length := by omega
  have := hlook i hi2
  rw [List.getD_eq_getElem out 0 hi] at this
  exact hbound _ _ this

lemma addAt_length (l : List Vec3) (k : Nat) (v : Vec3) : (addAt l k v).length = l.length := by
  simp [addAt]

lemma addAt_getD_self (l : List Vec3) (k : Nat) (v : Vec3) (h : k < l.length) :
    (addAt l k v).getD k Vec3.zero = l.getD k Vec3.zero + v := by
  unfold addAt
  rw [List.getD_eq_getElem _ _ (by simp [h])]
  rw [List.getElem_set_self]

lemma addAt_getD_ne (l : List Vec3) (k j : Nat) (v : Vec3) (h : k ≠ j) :
    (addAt l k v).getD j Vec3.zero = l.getD j Vec3.zero := by
  unfold addAt
  rw [List.getD_eq_getElem?_getD, List.getElem?_set_ne h, ← List.getD_eq_getElem?_getD]

lemma normalsSum_append (src : MeshSource) (corners out : List Nat)
    (hlen : out.length = corners.length) (c k v : Nat) :
    normalsSum src (corners ++ [c]) (out ++ [k]) v =
      if k = v then normalsSum src corners out v + cornerNormal src c
      else normalsSum src corners out v := by
  unfold normalsSum
  rw [List.zip_append hlen.symm, List.filter_append, List.foldl_append]
  by_cases hkv : k = v
  · have hb : (k == v) = true := by simp [hkv]
    simp [hkv, List.filter, hb]
  · have hb : (k == v) = false := by simp [hkv]
    simp [hkv, List.filter, hb]

lemma normalsSum_eq_zero (src : MeshSource) (corners out : List Nat) (v : Nat)
    (h : ∀ x ∈ out, x ≠ v) : normalsSum src corners out v = Vec3.zero := by
  unfold normalsSum
  have hnil : (corners.zip out).filter (fun p => p.2 == v) = [] := by
    rw [List.filter_eq_nil_iff]
    intro p hp
    have := (List.of_mem_zip hp).2
    simp [h _ this]
  rw [hnil]
  rfl

/-- One appendIndex call preserves the run invariant. -/
lemma runInv_step (src : MeshSource) (corners : List Nat) (acc : ExtractedAcc) (out : List Nat)
    (c : Nat) (hc : c < src.polygonIndices.length) (hinv : runInv src corners acc out) :
    runInv src (corners ++ [c]) (appendIndex src acc out c).1 (appendIndex src acc out c).2 := by
  have hout : ∀ x ∈ out, x < acc.vertices.length := fun x hx => out_lt_of_runInv hinv hx
  obtain ⟨hlen, ⟨hnl, hbound, hinj⟩, hlook, hnorm⟩ := hinv
  cases hm : lookupKey acc.keyIndices (cornerVertex src c) with
  | some k =>
      rw [appendIndex_hit src acc out c k hc hm]
      have hkv : k < acc.vertices.length := hbound _ _ hm
      refine ⟨by simp [hlen], ⟨by simp [addAt_length, hnl], hbound, hinj⟩, ?_, ?_⟩
      · intro i hi
        simp only [List.length_append, List.length_cons, List.length_nil] at hi
        by_cases hil : i < corners.length
        · rw [List.getD_append corners [c] 0 i hil,
              List.getD_append out [k] 0 i (by omega)]
          exact hlook i hil
        · have hieq : i = corners.length := by omega
          subst hieq
          rw [getD_concat_self corners c 0]
          have h2 : (out ++ [k]).getD corners.length 0 = k := by
            rw [← hlen]; exact getD_concat_self out k 0
          rw [h2]
          exact hm
      · intro v hv
        rw [normalsSum_append src corners out hlen c k v]
        by_cases hkveq : k = v
        · subst hkveq
          rw [if_pos rfl, addAt_getD_self acc.normals k _ (by omega)]
          rw [hnorm k hv]
        · rw [if_neg hkveq, addAt_getD_ne acc.normals k v _ hkveq]
          exact hnorm v hv
  | none =>
      rw [appendIndex_miss src acc out c hc hm]
      refine ⟨by simp [hlen], ⟨?_, ?_, ?_⟩, ?_, ?_⟩
      · simp [hnl]
      · intro k v hkv
        simp only [List.length_append, List.length_cons, List.length_nil]
        rw [lookupKey_append] at hkv
        cases hold : lookupKey acc.keyIndices k with
        | some w =>
            rw [hold] at hkv
            simp only [] at hkv
            cases hkv
            have := hbound _ _ hold
            omega
        | none =>
            rw [hold] at hkv
            simp only [] at hkv
            by_cases hkk : k = cornerVertex src c
            · rw [if_pos hkk] at hkv
              cases hkv
              omega
            · rw [if_neg hkk] at hkv
              cases hkv
      · intro k1 k2 v h1 h2
        rw [lookupKey_append] at h1 h2
        cases ho1 : lookupKey acc.keyIndices k1 <;> rw [ho1] at h1 <;>
          cases ho2 : lookupKey acc.keyIndices k2 <;> rw [ho2] at h2
        · -- both fresh: both keys must equal the new key
          by_cases hk1 : k1 = cornerVertex src c
          · by_cases hk2 : k2 = cornerVertex src c
            · rw [hk1, hk2]
            · rw [if_neg hk2] at h2; cases h2
          · rw [if_neg hk1] at h1; cases h1
        · -- k1 fresh (value = new index), k2 old (value < new index): impossible
          by_cases hk1 : k1 = cornerVertex src c
          · rw [if_pos hk1] at h1
            cases h1
            cases h2
            have := hbound _ _ ho2
            omega
          · rw [if_neg hk1] at h1; cases h1
        · by_cases hk2 : k2 = cornerVertex src c
          · rw [if_pos hk2] at h2
            cases h2
            cases h1
            have := hbound _ _ ho1
            omega
          · rw [if_neg hk2] at h2; cases h2
        · cases h1; cases h2
          exact hinj _ _ _ ho1 ho2
      · intro i hi
        simp only [List.length_append, List.length_cons, List.length_nil] at hi
        by_cases hil : i < corners.length
        · rw [List.getD_append corners [c] 0 i hil,
              List.getD_append out [acc.vertices.length] 0 i (by omega)]
          rw [lookupKey_append, hlook i hil]
        · have hieq : i = corners.length := by omega
          subst hieq
          rw [getD_concat_self corners c 0]
          have h2 : (out ++ [acc.vertices.length]).getD corners.length 0 =
              acc.vertices.length := by
            rw [← hlen]; exact getD_concat_self out acc.vertices.length 0
          rw [h2, lookupKey_append, hm]
          simp
      · intro v hv
        simp only [List.length_append, List.length_cons, List.length_nil] at hv
        rw [normalsSum_append src corners out hlen c acc.vertices.length v]
        by_cases hveq : acc.vertices.length = v
        · subst hveq
          rw [if_pos rfl]
          have hLHS : (acc.normals ++ [cornerNormal src c]).getD acc.vertices.length Vec3.zero =
              cornerNormal src c := by
            rw [← hnl]; exact getD_concat_self acc.normals (cornerNormal src c) Vec3.zero
          rw [hLHS, normalsSum_eq_zero src corners out acc.vertices.length
            (fun x hx => by have := hout x hx; omega), Vec3.zero_add]
        · rw [if_neg hveq]
          have hvlt : v < acc.vertices.length := by omega
          rw [List.getD_append acc.normals [cornerNormal src c] Vec3.zero v (by omega)]
          exact hnorm v hvlt

/-- Processing a corner list preserves the run invariant. -/
lemma runAppend_inv (src : MeshSource) (cs : List Nat)
    (h : ∀ c ∈ cs, c < src.polygonIndices.length) :
    ∀ corners acc out, runInv src corners acc out →
      runInv src (corners ++ cs) (runAppend src acc out cs).1 (runAppend src acc out cs).2 := by
  induction cs with
  | nil =>
      intro corners acc out hinv
      simpa [runAppend] using hinv
  | cons c cs ih =>
      intro corners acc out hinv
      have hc : c < src.polygonIndices.length := h c (List.mem_cons_self c cs)
      have hstep := runInv_step src corners acc out c hc hinv
      have hrest := ih (fun x hx => h x (List.mem_cons_of_mem c hx)) (corners ++ [c]) _ _ hstep
      simp only [runAppend]
      simpa [List.append_assoc] using hrest

/-- C1: Vertex deduplication is exact on the identity key.  Over any
sequence of polygon corners processed through appendIndex (from a fresh
mesh state), (1) each corner is assigned exactly one output index; (2)
two corners receive the same output index iff they resolve to the same
(source vertex index, primary UV, secondary UV) key; (3) each output
vertex's stored normal is the sum (not the average) of the resolved
normals of every corner assigned to it — so a corner hitting an existing
key has its normal added in; and (4) two corners sharing a source vertex
index but differing in primary UV get distinct output indices. -/
theorem c1_appendIndex_dedup_exact (src : MeshSource) (cs : List Nat)
    (h : ∀ c ∈ cs, c < src.polygonIndices.length) :
    ((runAppend src ExtractedAcc.empty [] cs).2.length = cs.length) ∧
    (∀ i j, i < cs.length → j < cs.length →
      ((runAppend src ExtractedAcc.empty [] cs).2.getD i 0 =
          (runAppend src ExtractedAcc.empty [] cs).2.getD j 0 ↔
        cornerVertex src (cs.getD i 0) = cornerVertex src (cs.getD j 0))) ∧
    (∀ v, v < (runAppend src ExtractedAcc.empty [] cs).1.vertices.length →
      (runAppend src ExtractedAcc.empty [] cs).1.normals.getD v Vec3.zero =
        normalsSum src cs (runAppend src ExtractedAcc.empty [] cs).2 v) ∧
    (∀ i j, i < cs.length → j < cs.length →
      (cornerVertex src (cs.getD i 0)).originalIndex =
        (cornerVertex src (cs.getD j 0)).originalIndex →
      (cornerVertex src (cs.getD i 0)).texCoord ≠ (cornerVertex src (cs.getD j 0)).texCoord →
      (runAppend src ExtractedAcc.empty [] cs).2.getD i 0 ≠
        (runAppend src ExtractedAcc.empty [] cs).2.getD j 0) := by
  have hinv := runAppend_inv src cs h [] ExtractedAcc.empty [] (runInv_empty src)
  rw [List.nil_append] at hinv
  obtain ⟨hlen, ⟨hnl, hbound, hinj⟩, hlook, hnorm⟩ := hinv
  have hiff : ∀ i j, i < cs.length → j < cs.length →
      ((runAppend src ExtractedAcc.empty [] cs).2.getD i 0 =
          (runAppend src ExtractedAcc.empty [] cs).2.getD j 0 ↔
        cornerVertex src (cs.getD i 0) = cornerVertex src (cs.getD j 0)) := by
    intro i j hi hj
    constructor
    · intro he
      exact hinj _ _ _ (hlook i hi) (he ▸ hlook j hj)
    · intro he
      have h1 := hlook i hi
      rw [he, hlook j hj] at h1
      exact (Option.some.inj h1).symm
  refine ⟨hlen, hiff, hnorm, ?_⟩
  intro i j hi hj _ ht he
  exact ht (congrArg Vertex.texCoord ((hiff i j hi hj).mp he))

/-- Concrete source for the C1 witness: corner 2 shares source vertex 0
with corner 0 but has a different UV (distinct outputs), corner 3
decodes -1 to source vertex 0 with corner UV (0,0) equal to corner 0's
key (same output). -/
def c1src : MeshSource :=
  { vertices := [⟨0, 0, 0⟩, ⟨1, 0, 0⟩],
    polygonIndices := [0, 1, 0, -1],
    normalsByVertex := false,
    normals := [⟨0, 0, 1⟩, ⟨0, 1, 0⟩, ⟨1, 0, 0⟩, ⟨0, 0, 2⟩],
    normalIndices := [],
    colorsByVertex := false,
    colors := [],
    colorIndices := [],
    texCoords := [⟨0, 0⟩, ⟨1, 0⟩, ⟨0, 1⟩, ⟨0, 0⟩],
    texCoordIndices := [],
    attributes := [] }

theorem c1_appendIndex_dedup_exact_witness :
    (runAppend c1src ExtractedAcc.empty [] [0, 1, 2, 3]).2.getD 0 0 =
        (runAppend c1src ExtractedAcc.empty [] [0, 1, 2, 3]).2.getD 3 0 ∧
    (runAppend c1src ExtractedAcc.empty [] [0, 1, 2, 3]).2.getD 0 0 ≠
        (runAppend c1src ExtractedAcc.empty [] [0, 1, 2, 3]).2.getD 2 0 ∧
    (runAppend c1src ExtractedAcc.empty [] [0, 1, 2, 3]).1.normals.getD 0 Vec3.zero =
        normalsSum c1src [0, 1, 2, 3] (runAppend c1src ExtractedAcc.empty [] [0, 1, 2, 3]).2 0 :=
  ⟨((c1_appendIndex_dedup_exact c1src [0, 1, 2, 3] (by decide)).2.1 0 3 (by decide)
      (by decide)).mpr (by decide),
   (c1_appendIndex_dedup_exact c1src [0, 1, 2, 3] (by decide)).2.2.2 0 2 (by decide) (by decide)
      (by decide) (by decide),
   (c1_appendIndex_dedup_exact c1src [0, 1, 2, 3] (by decide)).2.2.1 0 (by decide)⟩

/-! ### Polygon conversion (FBXReader::extractMesh, non-compressed path) -/

/-- One FBXMeshPart: quad corner indices, the triangles split out of
quads, and ordinary (fan) triangle indices. -/
structure FBXMeshPart where
  quadIndices : List Nat
  quadTrianglesIndices : List Nat
  triangleIndices : List Nat
  deriving DecidableEq, Repr

def FBXMeshPart.empty : FBXMeshPart := ⟨[], [], []⟩

/-- The corner-span scan (extractMesh line 470): advance endIndex while
the stream entry is non-negative, consuming the terminator inclusively.
The fuel argument makes the recursion structural; the wrapper below
supplies fuel past the stream length. -/
def scanEnd (poly : List Int) : Nat → Nat → Nat
  | 0, e => e
  | fuel + 1, e =>
      if e < poly.length then
        if 0 ≤ poly.getD e 0 then scanEnd poly fuel (e + 1) else e + 1
      else e

def scanPolygonEnd (poly : List Int) (beginIndex : Nat) : Nat :=
  scanEnd poly (poly.length + 1) beginIndex

/-- QHash<QPair<int,int>, int>::operator[] read with default 0
(extractMesh line 474). -/
def lookupMT : List ((Int × Int) × Nat) → (Int × Int) → Nat
  | [], _ => 0
  | (k, v) :: rest, key => if key = k then v else lookupMT rest key

/-- The state threaded through the polygon loop of extractMesh: the
dedup/extraction accumulator, the growing part list, the first-seen
(material, texture) keys in order, the key-to-part map, and the two loop
counters. -/
structure LoopState where
  acc : ExtractedAcc
  parts : List FBXMeshPart
  partMaterialTextures : List (Int × Int)
  mtParts : List ((Int × Int) × Nat)
  polygonIndex : Nat
  beginIndex : Nat
  deriving DecidableEq, Repr

def LoopState.initial : LoopState := ⟨ExtractedAcc.empty, [], [], [], 0, 0⟩

/-- The polygon's (material, texture) key (extractMesh lines 472-473):
per-polygon arrays when long enough, else 0. -/
def polygonMaterialTexture (materials textures : List Int) (polygonIndex : Nat) : Int × Int :=
  ((if polygonIndex < materials.length then materials.getD polygonIndex 0 else 0),
   (if polygonIndex < textures.length then textures.getD polygonIndex 0 else 0))

/-- Obtain or create the part for a (material, texture) key (extractMesh
lines 474-479): a zero map entry means absent; creation appends an empty
part and stores the 1-based part index. -/
def partSelect (st : LoopState) (mt : Int × Int) : LoopState × Nat :=
  let found := lookupMT st.mtParts mt
  if found = 0 then
    ({ st with
        parts := st.parts ++ [FBXMeshPart.empty],
        partMaterialTextures := st.partMaterialTextures ++ [mt],
        mtParts := st.mtParts ++ [(mt, st.parts.length + 1)] }, st.parts.length + 1)
  else (st, found)

/-- The fan-triangulation loop (extractMesh lines 510-517): repeatedly
appendIndex the first corner, the next corner (post-incremented), and
the corner after it, until the stream ends or the terminator was the
last corner consumed. -/
def fanLoop (src : MeshSource) : Nat → ExtractedAcc → List Nat → Nat → Nat →
    ExtractedAcc × List Nat
  | 0, acc, tris, _, _ => (acc, tris)
  | fuel + 1, acc, tris, beginIndex, nextIndex =>
      let r1 := appendIndex src acc tris beginIndex
      let r2 := appendIndex src r1.1 r1.2 nextIndex
      let r3 := appendIndex src r2.1 r2.2 (nextIndex + 1)
      if src.polygonIndices.length ≤ nextIndex + 1 ∨
          src.polygonIndices.getD (nextIndex + 1) 0 < 0 then
        (r3.1, r3.2)
      else fanLoop src fuel r3.1 r3.2 beginIndex (nextIndex + 1)

/-- One iteration of the polygon loop of extractMesh (lines 468-520):
scan the corner span, select the part, then either the quad branch
(lines 482-507: four appendIndex calls into quadIndices, read the four
output indices back, append triangles (i0,i1,i3) and (i1,i2,i3) to
quadTrianglesIndices) or the fan branch (lines 509-519). -/
def processPolygon (src : MeshSource) (materials textures : List Int) (st : LoopState) :
    LoopState :=
  let endIndex := scanPolygonEnd src.polygonIndices st.beginIndex
  let mt := polygonMaterialTexture materials textures st.polygonIndex
  let sp := partSelect st mt
  let part := sp.1.parts.getD (sp.2 - 1) FBXMeshPart.empty
  if endIndex - st.beginIndex = 4 then
    let r1 := appendIndex src st.acc part.quadIndices st.beginIndex
    let r2 := appendIndex src r1.1 r1.2 (st.beginIndex + 1)
    let r3 := appendIndex src r2.1 r2.2 (st.beginIndex + 2)
    let r4 := appendIndex src r3.1 r3.2 (st.beginIndex + 3)
    let quadStartIndex := r4.2.length - 4
    let i0 := r4.2.getD (quadStartIndex + 0) 0
    let i1 := r4.2.getD (quadStartIndex + 1) 0
    let i2 := r4.2.getD (quadStartIndex + 2) 0
    let i3 := r4.2.getD (quadStartIndex + 3) 0
    let newPart := { part with
                      quadIndices := r4.2,
                      quadTrianglesIndices :=
                        part.quadTrianglesIndices ++ [i0, i1, i3, i1, i2, i3] }
    { acc := r4.1,
      parts := sp.1.parts.set (sp.2 - 1) newPart,
      partMaterialTextures := sp.1.partMaterialTextures, mtParts := sp.1.mtParts,
      polygonIndex := st.polygonIndex + 1, beginIndex := st.beginIndex + 4 }
  else
    let r := fanLoop src (src.polygonIndices.length + 1) st.acc part.triangleIndices
      st.beginIndex (st.beginIndex + 1)
    let newPart := { part with triangleIndices := r.2 }
    { acc := r.1,
      parts := sp.1.parts.set (sp.2 - 1) newPart,
      partMaterialTextures := sp.1.partMaterialTextures, mtParts := sp.1.mtParts,
      polygonIndex := st.polygonIndex + 1, beginIndex := endIndex }

/-- The polygon loop of extractMesh (line 468): iterate processPolygon
while beginIndex has not reached the end of the polygon stream. -/
def convertPolygons (src : MeshSource) (materials textures : List Int) :
    Nat → LoopState → LoopState
  | 0, st => st
  | fuel + 1, st =>
      if st.beginIndex < src.polygonIndices.length then
        convertPolygons src materials textures fuel (processPolygon src materials textures st)
      else st

/-- The ExtractedMesh data produced by extractMesh that the later stages
consume. -/
structure ExtractedMeshModel where
  vertices : List Vec3
  normals : List Vec3
  texCoords : List Vec2
  texCoords1 : List Vec2
  colors : List Vec3
  newIndices : List (Nat × Nat)
  parts : List FBXMeshPart
  partMaterialTextures : List (Int × Int)
  deriving DecidableEq, Repr

/-- FBXReader::extractMesh, non-compressed path: convert the polygon
stream to quads and triangles.  Each loop iteration advances beginIndex
by at least one, so fuel length+1 covers every iteration the C++ loop
performs. -/
def extractMeshNonDraco (src : MeshSource) (materials textures : List Int) :
    ExtractedMeshModel :=
  let st := convertPolygons src materials textures (src.polygonIndices.length + 1)
    LoopState.initial
  { vertices := st.acc.vertices, normals := st.acc.normals, texCoords := st.acc.texCoords,
    texCoords1 := st.acc.texCoords1, colors := st.acc.colors, newIndices := st.acc.newIndices,
    parts := st.parts, partMaterialTextures := st.partMaterialTextures }

/-! ### Quad tessellation (C2) -/

/-- An in-bounds appendIndex call appends exactly one output index and
evolves the state as appendAcc. -/
lemma appendIndex_split (src : MeshSource) (acc : ExtractedAcc) (indices : List Nat)
    (index : Nat) (h : index < src.polygonIndices.length) :
    appendIndex src acc indices index =
      (appendAcc src acc index, indices ++ [appendOut src acc index]) := by
  unfold appendAcc appendOut
  cases hm : lookupKey acc.keyIndices (cornerVertex src index) with
  | none =>
      rw [appendIndex_miss src acc indices index h hm, appendIndex_miss src acc [] index h hm]
  | some k =>
      rw [appendIndex_hit src acc indices index k h hm, appendIndex_hit src acc [] index k h hm]

/-- Sequentially process corners b, b+1, ..., b+j-1 from a given state. -/
def chainAcc (src : MeshSource) (acc : ExtractedAcc) (b : Nat) : Nat → ExtractedAcc
  | 0 => acc
  | j + 1 => appendAcc src (chainAcc src acc b j) (b + j)

/-- The output index corner b+j receives when the corners from b are
processed sequentially starting from state acc. -/
def chainOut (src : MeshSource) (acc : ExtractedAcc) (b j : Nat) : Nat :=
  appendOut src (chainAcc src acc b j) (b + j)

lemma scanEnd_le (poly : List Int) :
    ∀ fuel e, e ≤ poly.length → scanEnd poly fuel e ≤ poly.length := by
  intro fuel
  induction fuel with
  | zero => intro e he; simpa [scanEnd] using he
  | succ n ih =>
      intro e he
      simp only [scanEnd]
      by_cases h1 : e < poly.length
      · rw [if_pos h1]
        by_cases h2 : (0 : Int) ≤ poly.getD e 0
        · rw [if_pos h2]; exact ih (e + 1) (by omega)
        · rw [if_neg h2]; omega
      · rw [if_neg h1]; exact he

lemma scanPolygonEnd_le (poly : List Int) (e : Nat) (he : e ≤ poly.length) :
    scanPolygonEnd poly e ≤ poly.length :=
  scanEnd_le poly (poly.length + 1) e he

lemma getD_append_nth (l xs : List Nat) (k : Nat) :
    (l ++ xs).getD (l.length + k) 0 = xs.getD k 0 := by
  rw [List.getD_eq_getElem?_getD, List.getElem?_append_right (by omega),
      Nat.add_sub_cancel_left, ← List.getD_eq_getElem?_getD]

lemma getD_append4_0 (l : List Nat) (a b c d : Nat) :
    (l ++ [a, b, c, d]).getD l.length 0 = a := by
  simpa using getD_append_nth l [a, b, c, d] 0

lemma getD_append4_1 (l : List Nat) (a b c d : Nat) :
    (l ++ [a, b, c, d]).getD (l.length + 1) 0 = b := by
  simpa using getD_append_nth l [a, b, c, d] 1

lemma getD_append4_2 (l : List Nat) (a b c d : Nat) :
    (l ++ [a, b, c, d]).getD (l.length + 2) 0 = c := by
  simpa using getD_append_nth l [a, b, c, d] 2

lemma getD_append4_3 (l : List Nat) (a b c d : Nat) :
    (l ++ [a, b, c, d]).getD (l.length + 3) 0 = d := by
  simpa using getD_append_nth l [a, b, c, d] 3

/-- The four chained appendIndex calls of the quad branch, written as the
sequential chain and its four outputs. -/
lemma quadChain (src : MeshSource) (acc : ExtractedAcc) (qi : List Nat) (b : Nat)
    (h : b + 4 ≤ src.polygonIndices.length) :
    appendIndex src
      (appendIndex src
        (appendIndex src (appendIndex src acc qi b).1 (appendIndex src acc qi b).2 (b + 1)).1
        (appendIndex src (appendIndex src acc qi b).1 (appendIndex src acc qi b).2 (b + 1)).2
        (b + 2)).1
      (appendIndex src
        (appendIndex src (appendIndex src acc qi b).1 (appendIndex src acc qi b).2 (b + 1)).1
        (appendIndex src (appendIndex src acc qi b).1 (appendIndex src acc qi b).2 (b + 1)).2
        (b + 2)).2
      (b + 3) =
    (chainAcc src acc b 4,
     qi ++ [chainOut src acc b 0, chainOut src acc b 1, chainOut src acc b 2,
            chainOut src acc b 3]) := by
  rw [appendIndex_split src acc qi b (by omega)]
  rw [appendIndex_split src _ _ (b + 1) (by omega)]
  rw [appendIndex_split src _ _ (b + 2) (by omega)]
  rw [appendIndex_split src _ _ (b + 3) (by omega)]
  have h4 : chainAcc src acc b 4 =
      appendAcc src (appendAcc src (appendAcc src (appendAcc src acc b) (b + 1)) (b + 2))
        (b + 3) := rfl
  have o0 : chainOut src acc b 0 = appendOut src acc b := rfl
  have o1 : chainOut src acc b 1 = appendOut src (appendAcc src acc b) (b + 1) := rfl
  have o2 : chainOut src acc b 2 =
      appendOut src (appendAcc src (appendAcc src acc b) (b + 1)) (b + 2) := rfl
  have o3 : chainOut src acc b 3 =
      appendOut src (appendAcc src (appendAcc src (appendAcc src acc b) (b + 1)) (b + 2))
        (b + 3) := rfl
  rw [h4, o0, o1, o2, o3]
  simp

/-- The spec's concrete quad scenario: vertices
[(0,0,0),(1,0,0),(1,1,0),(0,1,0)], polygon stream [0,1,2,-4], no
normals, UVs, or colors. -/
def quadScenarioSrc : MeshSource :=
  { vertices := [⟨0, 0, 0⟩, ⟨1, 0, 0⟩, ⟨1, 1, 0⟩, ⟨0, 1, 0⟩],
    polygonIndices := [0, 1, 2, -4],
    normalsByVertex := false, normals := [], normalIndices := [],
    colorsByVertex := false, colors := [], colorIndices := [],
    texCoords := [], texCoordIndices := [], attributes := [] }

/-- C2: Quad tessellation is deterministic with a fixed diagonal.  For
every polygon iteration whose corner span has exactly 4 corners, the
four corners are resolved in source order to output indices
(A,B,C,D) = (chainOut 0..3), appended to the part's quadIndices, and
exactly the triangles (A,B,D) and (B,C,D) are appended in that order to
the part's quad-triangles list; the ordinary triangle list is untouched
(the record update keeps triangleIndices).  In particular the spec's
concrete scenario yields the 4 input vertices, one part, and
quad-triangle index list [0,1,3,1,2,3]. -/
theorem c2_quad_split_fixed_diagonal :
    (∀ (src : MeshSource) (materials textures : List Int) (st : LoopState),
      st.beginIndex < src.polygonIndices.length →
      scanPolygonEnd src.polygonIndices st.beginIndex = st.beginIndex + 4 →
      processPolygon src materials textures st =
        (let sp := partSelect st (polygonMaterialTexture materials textures st.polygonIndex)
         let part := sp.1.parts.getD (sp.2 - 1) FBXMeshPart.empty
         { acc := chainAcc src st.acc st.beginIndex 4,
           parts := sp.1.parts.set (sp.2 - 1)
             { part with
                quadIndices := part.quadIndices ++
                  [chainOut src st.acc st.beginIndex 0, chainOut src st.acc st.beginIndex 1,
                   chainOut src st.acc st.beginIndex 2, chainOut src st.acc st.beginIndex 3],
                quadTrianglesIndices := part.quadTrianglesIndices ++
                  [chainOut src st.acc st.beginIndex 0, chainOut src st.acc st.beginIndex 1,
                   chainOut src st.acc st.beginIndex 3, chainOut src st.acc st.beginIndex 1,
                   chainOut src st.acc st.beginIndex 2, chainOut src st.acc st.beginIndex 3] },
           partMaterialTextures := sp.1.partMaterialTextures,
           mtParts := sp.1.mtParts,
           polygonIndex := st.polygonIndex + 1,
           beginIndex := st.beginIndex + 4 })) ∧
    (extractMeshNonDraco quadScenarioSrc [] []).vertices =
      [⟨0, 0, 0⟩, ⟨1, 0, 0⟩, ⟨1, 1, 0⟩, ⟨0, 1, 0⟩] ∧
    (extractMeshNonDraco quadScenarioSrc [] []).parts =
      [{ quadIndices := [0, 1, 2, 3], quadTrianglesIndices := [0, 1, 3, 1, 2, 3],
         triangleIndices := [] }] := by
  refine ⟨?_, by decide, by decide⟩
  intro src materials textures st hb hspan
  have h4 : st.beginIndex + 4 ≤ src.polygonIndices.length := by
    rw [← hspan]
    exact scanPolygonEnd_le src.polygonIndices st.beginIndex (by omega)
  unfold processPolygon
  rw [hspan]
  simp only [Nat.add_sub_cancel_left, if_pos, if_true]
  rw [quadChain src st.acc _ st.beginIndex h4]
  simp only [List.length_append, List.length_cons, List.length_nil, Nat.add_sub_cancel,
    Nat.add_zero, getD_append4_0, getD_append4_1, getD_append4_2, getD_append4_3]

theorem c2_quad_split_fixed_diagonal_witness :
    processPolygon quadScenarioSrc [] [] LoopState.initial =
      (let sp := partSelect LoopState.initial
         (polygonMaterialTexture [] [] LoopState.initial.polygonIndex)
       let part := sp.1.parts.getD (sp.2 - 1) FBXMeshPart.empty
       { acc := chainAcc quadScenarioSrc LoopState.initial.acc LoopState.initial.beginIndex 4,
         parts := sp.1.parts.set (sp.2 - 1)
           { part with
              quadIndices := part.quadIndices ++
                [chainOut quadScenarioSrc LoopState.initial.acc LoopState.initial.beginIndex 0,
                 chainOut quadScenarioSrc LoopState.initial.acc LoopState.initial.beginIndex 1,
                 chainOut quadScenarioSrc LoopState.initial.acc LoopState.initial.beginIndex 2,
                 chainOut quadScenarioSrc LoopState.initial.acc LoopState.initial.beginIndex 3],
              quadTrianglesIndices := part.quadTrianglesIndices ++
                [chainOut quadScenarioSrc LoopState.initial.acc LoopState.initial.beginIndex 0,
                 chainOut quadScenarioSrc LoopState.initial.acc LoopState.initial.beginIndex 1,
                 chainOut quadScenarioSrc LoopState.initial.acc LoopState.initial.beginIndex 3,
                 chainOut quadScenarioSrc LoopState.initial.acc LoopState.initial.beginIndex 1,
                 chainOut quadScenarioSrc LoopState.initial.acc LoopState.initial.beginIndex 2,
                 chainOut quadScenarioSrc LoopState.initial.acc LoopState.initial.beginIndex 3] },
         partMaterialTextures := sp.1.partMaterialTextures,
         mtParts := sp.1.mtParts,
         polygonIndex := LoopState.initial.polygonIndex + 1,
         beginIndex := LoopState.initial.beginIndex + 4 }) :=
  c2_quad_split_fixed_diagonal.1 quadScenarioSrc [] [] LoopState.initial (by decide) (by decide)
/-! ### N-gon fan triangulation (C3) -/

lemma range_succ_flatMap (g : Nat → List Nat) (k : Nat) :
    (List.range (k + 1)).flatMap g = g 0 ++ (List.range k).flatMap (fun t => g (t + 1)) := by
  rw [List.range_succ_eq_map, List.flatMap_cons, List.flatMap_map]

/-- Equality of the parts of the extraction state that determine dedup
lookups and fresh indices (keyIndices and the vertex array). -/
def kvEq (a b : ExtractedAcc) : Prop :=
  a.keyIndices = b.keyIndices ∧ a.vertices = b.vertices

lemma kvEq_refl (a : ExtractedAcc) : kvEq a a := ⟨rfl, rfl⟩

lemma kvEq_trans {a b c : ExtractedAcc} (h1 : kvEq a b) (h2 : kvEq b c) : kvEq a c :=
  ⟨h1.1.trans h2.1, h1.2.trans h2.2⟩

lemma appendOut_kv {a b : ExtractedAcc} (src : MeshSource) (h : kvEq a b) (c : Nat) :
    appendOut src a c = appendOut src b c := by
  unfold appendOut
  rw [h.1, h.2]

lemma appendAcc_kv {a b : ExtractedAcc} (src : MeshSource) (h : kvEq a b) (c : Nat) :
    kvEq (appendAcc src a c) (appendAcc src b c) := by
  obtain ⟨hk, hv⟩ := h
  by_cases hc : c < src.polygonIndices.length
  · cases hm : lookupKey a.keyIndices (cornerVertex src c) with
    | none =>
        have hmb : lookupKey b.keyIndices (cornerVertex src c) = none := by rw [← hk]; exact hm
        unfold appendAcc
        rw [appendIndex_miss src a [] c hc hm, appendIndex_miss src b [] c hc hmb]
        exact ⟨by simp [hk, hv], by simp [hv]⟩
    | some k =>
        have hmb : lookupKey b.keyIndices (cornerVertex src c) = some k := by rw [← hk]; exact hm
        unfold appendAcc
        rw [appendIndex_hit src a [] c k hc hm, appendIndex_hit src b [] c k hc hmb]
        exact ⟨hk, hv⟩
  · unfold appendAcc appendIndex
    rw [if_pos (by omega), if_pos (by omega)]
    exact ⟨hk, hv⟩

lemma appendAcc_hit_kv (src : MeshSource) (a : ExtractedAcc) (c k : Nat)
    (hc : c < src.polygonIndices.length)
    (hm : lookupKey a.keyIndices (cornerVertex src c) = some k) :
    kvEq (appendAcc src a c) a := by
  unfold appendAcc
  rw [appendIndex_hit src a [] c k hc hm]
  exact ⟨rfl, rfl⟩

lemma appendAcc_lookup_self (src : MeshSource) (a : ExtractedAcc) (c : Nat)
    (hc : c < src.polygonIndices.length) :
    lookupKey (appendAcc src a c).keyIndices (cornerVertex src c) =
      some (appendOut src a c) := by
  unfold appendAcc appendOut
  cases hm : lookupKey a.keyIndices (cornerVertex src c) with
  | none =>
      rw [appendIndex_miss src a [] c hc hm]
      simp [lookupKey_append, hm]
  | some k =>
      rw [appendIndex_hit src a [] c k hc hm]
      simpa using hm

lemma appendAcc_lookup_mono (src : MeshSource) (a : ExtractedAcc) (c : Nat) {key : Vertex}
    {v : Nat} (h : lookupKey a.keyIndices key = some v) :
    lookupKey (appendAcc src a c).keyIndices key = some v := by
  by_cases hc : c < src.polygonIndices.length
  · cases hm : lookupKey a.keyIndices (cornerVertex src c) with
    | none =>
        unfold appendAcc
        rw [appendIndex_miss src a [] c hc hm]
        simp [lookupKey_append, h]
    | some k =>
        unfold appendAcc
        rw [appendIndex_hit src a [] c k hc hm]
        simpa using h
  · unfold appendAcc appendIndex
    rw [if_pos (by omega)]
    exact h

lemma appendOut_of_lookup {src : MeshSource} {a : ExtractedAcc} {c v : Nat}
    (hm : lookupKey a.keyIndices (cornerVertex src c) = some v) : appendOut src a c = v := by
  unfold appendOut
  rw [hm]

/-- In any later chain state, a previously processed corner looks up to
its chain output. -/
lemma chain_lookup (src : MeshSource) (acc : ExtractedAcc) (b : Nat) :
    ∀ m j, j < m → b + j < src.polygonIndices.length →
      lookupKey (chainAcc src acc b m).keyIndices (cornerVertex src (b + j)) =
        some (chainOut src acc b j) := by
  intro m
  induction m with
  | zero => intro j hj; omega
  | succ m ih =>
      intro j hjm hb
      show lookupKey (appendAcc src (chainAcc src acc b m) (b + m)).keyIndices _ = _
      by_cases hj : j = m
      · subst hj
        exact appendAcc_lookup_self src (chainAcc src acc b j) (b + j) hb
      · exact appendAcc_lookup_mono src _ _ (ih j (by omega) hb)

lemma fanLoop_spec_aux (src : MeshSource) (acc0 : ExtractedAcc) (b N : Nat)
    (hN : 3 ≤ N) (hlen : b + N ≤ src.polygonIndices.length)
    (hpos : ∀ j, j < N - 1 → 0 ≤ src.polygonIndices.getD (b + j) 0)
    (hneg : src.polygonIndices.getD (b + (N - 1)) 0 < 0) :
    ∀ fuel i a tris, 2 ≤ i → i ≤ N - 2 → kvEq a (chainAcc src acc0 b (i + 1)) →
      N - 1 - i ≤ fuel →
      (fanLoop src fuel a tris b (b + i)).2 =
        tris ++ (List.range (N - 1 - i)).flatMap
          (fun t => [chainOut src acc0 b 0, chainOut src acc0 b (i + t),
                     chainOut src acc0 b (i + t + 1)]) := by
  intro fuel
  induction fuel with
  | zero => intro i a tris h2 hiN hkv hfuel; omega
  | succ fuel ih =>
      intro i a tris h2 hiN hkv hfuel
      have hblen : b < src.polygonIndices.length := by omega
      have hbi : b + i < src.polygonIndices.length := by omega
      have hbi1 : b + i + 1 < src.polygonIndices.length := by omega
      have hl0 : lookupKey a.keyIndices (cornerVertex src b) =
          some (chainOut src acc0 b 0) := by
        have hc := chain_lookup src acc0 b (i + 1) 0 (by omega) (by omega)
        rw [Nat.add_zero] at hc
        rw [hkv.1]
        exact hc
      have ho0 : appendOut src a b = chainOut src acc0 b 0 := appendOut_of_lookup hl0
      have hkv1 : kvEq (appendAcc src a b) (chainAcc src acc0 b (i + 1)) :=
        kvEq_trans (appendAcc_hit_kv src a b _ hblen hl0) hkv
      have hli : lookupKey (appendAcc src a b).keyIndices (cornerVertex src (b + i)) =
          some (chainOut src acc0 b i) := by
        rw [hkv1.1]
        exact chain_lookup src acc0 b (i + 1) i (by omega) hbi
      have hoi : appendOut src (appendAcc src a b) (b + i) = chainOut src acc0 b i :=
        appendOut_of_lookup hli
      have hkv2 : kvEq (appendAcc src (appendAcc src a b) (b + i))
          (chainAcc src acc0 b (i + 1)) :=
        kvEq_trans (appendAcc_hit_kv src (appendAcc src a b) (b + i) _ hbi hli) hkv1
      have hoi1 : appendOut src (appendAcc src (appendAcc src a b) (b + i)) (b + i + 1) =
          chainOut src acc0 b (i + 1) :=
        appendOut_kv src hkv2 (b + i + 1)
      have hkv3 : kvEq (appendAcc src (appendAcc src (appendAcc src a b) (b + i)) (b + i + 1))
          (chainAcc src acc0 b (i + 2)) :=
        appendAcc_kv src hkv2 (b + i + 1)
      simp only [fanLoop]
      rw [appendIndex_split src a tris b hblen]
      dsimp only
      rw [appendIndex_split src (appendAcc src a b) (tris ++ [appendOut src a b]) (b + i) hbi]
      dsimp only
      rw [appendIndex_split src (appendAcc src (appendAcc src a b) (b + i))
        ((tris ++ [appendOut src a b]) ++ [appendOut src (appendAcc src a b) (b + i)])
        (b + i + 1) hbi1]
      dsimp only
      rw [ho0, hoi, hoi1]
      by_cases hi : i = N - 2
      · subst hi
        have hcond : src.polygonIndices.length ≤ b + (N - 2) + 1 ∨
            src.polygonIndices.getD (b + (N - 2) + 1) 0 < 0 := by
          right
          have heq : b + (N - 2) + 1 = b + (N - 1) := by omega
          rw [heq]
          exact hneg
        rw [if_pos hcond]
        dsimp only
        have hone : N - 1 - (N - 2) = 1 := by omega
        rw [hone]
        have hr1 : List.range 1 = [0] := rfl
        rw [hr1]
        simp [List.flatMap]
      · have hcond : ¬ (src.polygonIndices.length ≤ b + i + 1 ∨
            src.polygonIndices.getD (b + i + 1) 0 < 0) := by
          push_neg
          refine ⟨by omega, ?_⟩
          have heq : b + i + 1 = b + (i + 1) := by omega
          rw [heq]
          exact hpos (i + 1) (by omega)
        rw [if_neg hcond]
        have harg : b + i + 1 = b + (i + 1) := by omega
        rw [harg]
        rw [harg] at hkv3
        rw [ih (i + 1) _ _ (by omega) (by omega) hkv3 (by omega)]
        have hsplit : N - 1 - i = (N - 1 - (i + 1)) + 1 := by omega
        rw [hsplit, range_succ_flatMap]
        have hfun : (fun t => [chainOut src acc0 b 0, chainOut src acc0 b (i + 1 + t),
            chainOut src acc0 b (i + 1 + t + 1)]) =
            (fun t => [chainOut src acc0 b 0, chainOut src acc0 b (i + (t + 1)),
              chainOut src acc0 b (i + (t + 1) + 1)]) := by
          funext t
          have e1 : i + 1 + t = i + (t + 1) := by omega
          rw [e1]
        rw [hfun]
        simp

lemma fanLoop_spec (src : MeshSource) (acc0 : ExtractedAcc) (tris : List Nat) (b N : Nat)
    (hN : 3 ≤ N) (hlen : b + N ≤ src.polygonIndices.length)
    (hpos : ∀ j, j < N - 1 → 0 ≤ src.polygonIndices.getD (b + j) 0)
    (hneg : src.polygonIndices.getD (b + (N - 1)) 0 < 0) :
    ∀ fuel, N - 2 ≤ fuel →
    (fanLoop src fuel acc0 tris b (b + 1)).2 =
      tris ++ (List.range (N - 2)).flatMap
        (fun t => [chainOut src acc0 b 0, chainOut src acc0 b (t + 1),
                   chainOut src acc0 b (t + 2)]) := by
  intro fuel
  cases fuel with
  | zero => intro hfuel; omega
  | succ fuel =>
      intro hfuel
      have hblen : b < src.polygonIndices.length := by omega
      have hb1 : b + 1 < src.polygonIndices.length := by omega
      have hb2 : b + 1 + 1 < src.polygonIndices.length := by omega
      have e1 : appendAcc src acc0 b = chainAcc src acc0 b 1 := rfl
      have ho0 : appendOut src acc0 b = chainOut src acc0 b 0 := rfl
      have ho1 : appendOut src (chainAcc src acc0 b 1) (b + 1) = chainOut src acc0 b 1 := rfl
      have e2 : appendAcc src (chainAcc src acc0 b 1) (b + 1) = chainAcc src acc0 b 2 := rfl
      have ho2 : appendOut src (chainAcc src acc0 b 2) (b + 1 + 1) =
        chainOut src acc0 b 2 := rfl
      have e3 : appendAcc src (chainAcc src acc0 b 2) (b + 1 + 1) =
        chainAcc src acc0 b 3 := rfl
      simp only [fanLoop]
      rw [appendIndex_split src acc0 tris b hblen]
      dsimp only
      rw [e1, ho0]
      rw [appendIndex_split src (chainAcc src acc0 b 1) (tris ++ [chainOut src acc0 b 0])
        (b + 1) hb1]
      dsimp only
      rw [e2, ho1]
      rw [appendIndex_split src (chainAcc src acc0 b 2)
        ((tris ++ [chainOut src acc0 b 0]) ++ [chainOut src acc0 b 1]) (b + 1 + 1) hb2]
      dsimp only
      rw [e3, ho2]
      by_cases hN3 : N = 3
      · subst hN3
        have hcond : src.polygonIndices.length ≤ b + 1 + 1 ∨
            src.polygonIndices.getD (b + 1 + 1) 0 < 0 := by
          right
          have heq : b + 1 + 1 = b + (3 - 1) := by omega
          rw [heq]
          exact hneg
        rw [if_pos hcond]
        dsimp only
        have hr1 : List.range (3 - 2) = [0] := rfl
        rw [hr1]
        simp [List.flatMap]
      · have hcond : ¬ (src.polygonIndices.length ≤ b + 1 + 1 ∨
            src.polygonIndices.getD (b + 1 + 1) 0 < 0) := by
          push_neg
          refine ⟨by omega, ?_⟩
          have heq : b + 1 + 1 = b + 2 := by omega
          rw [heq]
          exact hpos 2 (by omega)
        rw [if_neg hcond]
        have harg : b + 1 + 1 = b + 2 := by omega
        rw [harg]
        rw [fanLoop_spec_aux src acc0 b N hN hlen hpos hneg fuel 2 (chainAcc src acc0 b 3)
          _ (by omega) (by omega) (kvEq_refl _) (by omega)]
        have hsplit : N - 2 = (N - 3) + 1 := by omega
        have hsplit2 : N - 1 - 2 = N - 3 := by omega
        rw [hsplit2, hsplit, range_succ_flatMap]
        have hfun : (fun t => [chainOut src acc0 b 0, chainOut src acc0 b (t + 1 + 1),
            chainOut src acc0 b (t + 1 + 2)]) =
            (fun t => [chainOut src acc0 b 0, chainOut src acc0 b (2 + t),
              chainOut src acc0 b (2 + t + 1)]) := by
          funext t
          have f1 : t + 1 + 1 = 2 + t := by omega
          have f2 : t + 1 + 2 = 2 + t + 1 := by omega
          rw [f1, f2]
        simp only [hfun]
        simp

lemma scanEnd_term (poly : List Int) :
    ∀ fuel e m, e ≤ m → m < poly.length →
      (∀ j, e ≤ j → j < m → 0 ≤ poly.getD j 0) → poly.getD m 0 < 0 →
      m - e < fuel → scanEnd poly fuel e = m + 1 := by
  intro fuel
  induction fuel with
  | zero => intro e m h1 h2 h3 h4 h5; omega
  | succ f ih =>
      intro e m h1 h2 h3 h4 h5
      simp only [scanEnd]
      rw [if_pos (by omega)]
      by_cases hem : e = m
      · subst hem
        rw [if_neg (by omega)]
      · have h0 : 0 ≤ poly.getD e 0 := h3 e le_rfl (by omega)
        rw [if_pos h0]
        exact ih (e + 1) m (by omega) h2 (fun j hj1 hj2 => h3 j (by omega) hj2) h4 (by omega)

lemma scanPolygonEnd_of_polygon (poly : List Int) (b N : Nat) (hN : 1 ≤ N)
    (hlen : b + N ≤ poly.length)
    (hpos : ∀ j, j < N - 1 → 0 ≤ poly.getD (b + j) 0)
    (hneg : poly.getD (b + (N - 1)) 0 < 0) :
    scanPolygonEnd poly b = b + N := by
  have hterm := scanEnd_term poly (poly.length + 1) b (b + (N - 1)) (by omega) (by omega)
    (fun j hj1 hj2 => by
      have hp := hpos (j - b) (by omega)
      have heq : b + (j - b) = j := by omega
      rwa [heq] at hp) hneg (by omega)
  unfold scanPolygonEnd
  rw [hterm]
  omega

/-- C3: N-gon triangulation is a deterministic fan from the first
corner.  For every polygon iteration whose corner span has N corners
(N at least 3, N not 4: entries b..b+N-2 of the stream non-negative,
entry b+N-1 the negative terminator), the part's ordinary triangle list
is extended by exactly the triangles
(corner 0, corner t+1, corner t+2) for t = 0..N-3, in that order, where
corner j's output index is chainOut j (the index the dedup assigns when
the corners are resolved from the first); the quad lists are untouched
(the record update keeps quadIndices and quadTrianglesIndices). -/
theorem c3_ngon_fan_triangulation (src : MeshSource) (materials textures : List Int)
    (st : LoopState) (N : Nat) (hN : 3 ≤ N) (hN4 : N ≠ 4)
    (hlen : st.beginIndex + N ≤ src.polygonIndices.length)
    (hpos : ∀ j, j < N - 1 → 0 ≤ src.polygonIndices.getD (st.beginIndex + j) 0)
    (hneg : src.polygonIndices.getD (st.beginIndex + (N - 1)) 0 < 0) :
    processPolygon src materials textures st =
      (let sp := partSelect st (polygonMaterialTexture materials textures st.polygonIndex)
       let part := sp.1.parts.getD (sp.2 - 1) FBXMeshPart.empty
       { acc := (fanLoop src (src.polygonIndices.length + 1) st.acc part.triangleIndices
           st.beginIndex (st.beginIndex + 1)).1,
         parts := sp.1.parts.set (sp.2 - 1)
           { part with
              triangleIndices := part.triangleIndices ++
                (List.range (N - 2)).flatMap (fun t =>
                  [chainOut src st.acc st.beginIndex 0,
                   chainOut src st.acc st.beginIndex (t + 1),
                   chainOut src st.acc st.beginIndex (t + 2)]) },
         partMaterialTextures := sp.1.partMaterialTextures,
         mtParts := sp.1.mtParts,
         polygonIndex := st.polygonIndex + 1,
         beginIndex := st.beginIndex + N }) := by
  have hspan : scanPolygonEnd src.polygonIndices st.beginIndex = st.beginIndex + N :=
    scanPolygonEnd_of_polygon _ _ N (by omega) hlen hpos hneg
  unfold processPolygon
  rw [hspan]
  simp only [Nat.add_sub_cancel_left]
  rw [if_neg hN4]
  rw [fanLoop_spec src st.acc _ st.beginIndex N hN hlen hpos hneg
    (src.polygonIndices.length + 1) (by omega)]

/-- Concrete pentagon for the C3 witness. -/
def pentagonSrc : MeshSource :=
  { vertices := [⟨0, 0, 0⟩, ⟨1, 0, 0⟩, ⟨1, 1, 0⟩, ⟨0, 1, 0⟩, ⟨2, 2, 0⟩],
    polygonIndices := [0, 1, 2, 3, -5],
    normalsByVertex := false, normals := [], normalIndices := [],
    colorsByVertex := false, colors := [], colorIndices := [],
    texCoords := [], texCoordIndices := [], attributes := [] }

theorem c3_ngon_fan_triangulation_witness :
    processPolygon pentagonSrc [] [] LoopState.initial =
      (let sp := partSelect LoopState.initial
         (polygonMaterialTexture [] [] LoopState.initial.polygonIndex)
       let part := sp.1.parts.getD (sp.2 - 1) FBXMeshPart.empty
       { acc := (fanLoop pentagonSrc (pentagonSrc.polygonIndices.length + 1)
           LoopState.initial.acc part.triangleIndices LoopState.initial.beginIndex
           (LoopState.initial.beginIndex + 1)).1,
         parts := sp.1.parts.set (sp.2 - 1)
           { part with
              triangleIndices := part.triangleIndices ++
                (List.range (5 - 2)).flatMap (fun t =>
                  [chainOut pentagonSrc LoopState.initial.acc LoopState.initial.beginIndex 0,
                   chainOut pentagonSrc LoopState.initial.acc LoopState.initial.beginIndex
                     (t + 1),
                   chainOut pentagonSrc LoopState.initial.acc LoopState.initial.beginIndex
                     (t + 2)]) },
         partMaterialTextures := sp.1.partMaterialTextures,
         mtParts := sp.1.mtParts,
         polygonIndex := LoopState.initial.polygonIndex + 1,
         beginIndex := LoopState.initial.beginIndex + 5 }) :=
  c3_ngon_fan_triangulation pentagonSrc [] [] LoopState.initial 5 (by decide) (by decide)
    (by decide) (by decide) (by decide)

/-! ### Per-vertex array length invariant (C8, C10) -/

/-- The length relations appendIndex maintains: normals and primary UVs
track the vertex count; colors and secondary UVs track it exactly when
their source condition (colors.size() > 1, attributes.size() > 1) holds,
and stay empty otherwise. -/
def lenInv (src : MeshSource) (acc : ExtractedAcc) : Prop :=
  acc.normals.length = acc.vertices.length ∧
  acc.texCoords.length = acc.vertices.length ∧
  acc.colors.length = (if 1 < src.colors.length then acc.vertices.length else 0) ∧
  acc.texCoords1.length = (if 1 < src.attributes.length then acc.vertices.length else 0)

lemma lenInv_empty (src : MeshSource) : lenInv src ExtractedAcc.empty := by
  refine ⟨rfl, rfl, ?_, ?_⟩ <;> simp [ExtractedAcc.empty]

lemma lenInv_appendIndex (src : MeshSource) (acc : ExtractedAcc) (indices : List Nat)
    (index : Nat) (h : lenInv src acc) : lenInv src (appendIndex src acc indices index).1 := by
  obtain ⟨h1, h2, h3, h4⟩ := h
  by_cases hc : index < src.polygonIndices.length
  · cases hm : lookupKey acc.keyIndices (cornerVertex src index) with
    | none =>
        rw [appendIndex_miss src acc indices index hc hm]
        refine ⟨by simp [h1], by simp [h2], ?_, ?_⟩
        · by_cases hcol : 1 < src.colors.length
          · rw [if_pos hcol] at h3
            simp [hcol, h3]
          · rw [if_neg hcol] at h3
            simp [hcol, h3]
        · by_cases ht : 1 < src.attributes.length
          · rw [if_pos ht] at h4
            simp [ht, h4]
          · rw [if_neg ht] at h4
            simp [ht, h4]
    | some k =>
        rw [appendIndex_hit src acc indices index k hc hm]
        exact ⟨by simp [addAt_length, h1], h2, h3, h4⟩
  · unfold appendIndex
    rw [if_pos (by omega)]
    exact ⟨h1, h2, h3, h4⟩

lemma lenInv_fanLoop (src : MeshSource) :
    ∀ fuel acc tris b n, lenInv src acc → lenInv src (fanLoop src fuel acc tris b n).1 := by
  intro fuel
  induction fuel with
  | zero => intro acc tris b n h; exact h
  | succ f ih =>
      intro acc tris b n h
      simp only [fanLoop]
      split
      · exact lenInv_appendIndex src _ _ _
          (lenInv_appendIndex src _ _ _ (lenInv_appendIndex src _ _ _ h))
      · exact ih _ _ _ _ (lenInv_appendIndex src _ _ _
          (lenInv_appendIndex src _ _ _ (lenInv_appendIndex src _ _ _ h)))

lemma lenInv_processPolygon (src : MeshSource) (materials textures : List Int)
    (st : LoopState) (h : lenInv src st.acc) :
    lenInv src (processPolygon src materials textures st).acc := by
  simp only [processPolygon]
  split
  · exact lenInv_appendIndex src _ _ _ (lenInv_appendIndex src _ _ _
      (lenInv_appendIndex src _ _ _ (lenInv_appendIndex src _ _ _ h)))
  · exact lenInv_fanLoop src _ _ _ _ _ h

lemma lenInv_convertPolygons (src : MeshSource) (materials textures : List Int) :
    ∀ fuel st, lenInv src st.acc →
      lenInv src (convertPolygons src materials textures fuel st).acc := by
  intro fuel
  induction fuel with
  | zero => exact fun st h => h
  | succ f ih =>
      intro st h
      simp only [convertPolygons]
      split
      · exact ih _ (lenInv_processPolygon src materials textures st h)
      · exact h

lemma extractMeshNonDraco_lenInv (src : MeshSource) (materials textures : List Int) :
    lenInv src { vertices := (extractMeshNonDraco src materials textures).vertices,
                 normals := (extractMeshNonDraco src materials textures).normals,
                 texCoords := (extractMeshNonDraco src materials textures).texCoords,
                 texCoords1 := (extractMeshNonDraco src materials textures).texCoords1,
                 colors := (extractMeshNonDraco src materials textures).colors,
                 newIndices := [], keyIndices := [] } := by
  have h := lenInv_convertPolygons src materials textures (src.polygonIndices.length + 1)
    LoopState.initial (lenInv_empty src)
  exact h

/-! ### The compressed (Draco) extraction path -/

/-- The decoded Draco mesh as the code consumes it: a point count, one
optional per-point accessor per attribute (GetNamedAttribute /
GetAttributeByUniqueId return null when absent), the face list of
3-point-index triples, and the optional per-point material-id
attribute.  The codec itself is an external library; this models its
output interface. -/
structure DracoMeshModel where
  numPoints : Nat
  position : Option (Nat → Vec3)
  normal : Option (Nat → Vec3)
  texCoord : Option (Nat → Vec2)
  texCoord1 : Option (Nat → Vec2)
  color : Option (Nat → Vec3)
  faces : List (Nat × Nat × Nat)
  matTex : Option (Nat → Nat)

/-- The face loop of the Draco path (extractMesh lines 423-451):
materialID from the material attribute at the face's first corner
(default 0), texture id fixed 0; parts created lazily per first-seen
key; the three point indices appended verbatim as one triangle. -/
def dracoFaceLoop (matTex : Option (Nat → Nat)) :
    List (Nat × Nat × Nat) → List FBXMeshPart → List (Int × Int) →
    List ((Int × Int) × Nat) → List FBXMeshPart × List (Int × Int) :=
  fun faces parts pmt mtp =>
    match faces with
    | [] => (parts, pmt)
    | f :: rest =>
        let materialID : Int := match matTex with
          | some g => (g f.1 : Nat)
          | none => 0
        let mt : Int × Int := (materialID, 0)
        let found := lookupMT mtp mt
        let next :=
          if found = 0 then
            (parts ++ [FBXMeshPart.empty], pmt ++ [mt], mtp ++ [(mt, parts.length + 1)],
             parts.length + 1)
          else (parts, pmt, mtp, found)
        let part := next.1.getD (next.2.2.2 - 1) FBXMeshPart.empty
        let newPart := { part with
                          triangleIndices := part.triangleIndices ++ [f.1, f.2.1, f.2.2] }
        dracoFaceLoop matTex rest (next.1.set (next.2.2.2 - 1) newPart) next.2.1 next.2.2.1

/-- FBXReader::extractMesh, compressed (DracoMesh) path, lines 339-451:
per point, append each attribute value if that attribute is present;
newIndices maps every point index to itself; then the face loop builds
the parts. -/
def extractMeshDraco (dm : DracoMeshModel) : ExtractedMeshModel :=
  let vertices := match dm.position with
    | some f => (List.range dm.numPoints).map f
    | none => []
  let normals := match dm.normal with
    | some f => (List.range dm.numPoints).map f
    | none => []
  let texCoords := match dm.texCoord with
    | some f => (List.range dm.numPoints).map f
    | none => []
  let texCoords1 := match dm.texCoord1 with
    | some f => (List.range dm.numPoints).map f
    | none => []
  let colors := match dm.color with
    | some f => (List.range dm.numPoints).map f
    | none => []
  let fl := dracoFaceLoop dm.matTex dm.faces [] [] []
  { vertices := vertices, normals := normals, texCoords := texCoords,
    texCoords1 := texCoords1, colors := colors,
    newIndices := (List.range dm.numPoints).map (fun i => (i, i)),
    parts := fl.1, partMaterialTextures := fl.2 }

/-- C8: every non-empty per-vertex attribute array of a produced
ExtractedMesh has length equal to the unique-vertex count.  For the
non-compressed path the unique-vertex count is the output vertex array
length; for the compressed path it is the decoded point count (the
codec delivers unique points; the vertex array itself equals that count
whenever the position attribute is present, and every other non-empty
array equals it unconditionally). -/
theorem c8_array_length_invariant :
    (∀ (src : MeshSource) (materials textures : List Int),
      ((extractMeshNonDraco src materials textures).normals ≠ [] →
        (extractMeshNonDraco src materials textures).normals.length =
          (extractMeshNonDraco src materials textures).vertices.length) ∧
      ((extractMeshNonDraco src materials textures).texCoords ≠ [] →
        (extractMeshNonDraco src materials textures).texCoords.length =
          (extractMeshNonDraco src materials textures).vertices.length) ∧
      ((extractMeshNonDraco src materials textures).colors ≠ [] →
        (extractMeshNonDraco src materials textures).colors.length =
          (extractMeshNonDraco src materials textures).vertices.length) ∧
      ((extractMeshNonDraco src materials textures).texCoords1 ≠ [] →
        (extractMeshNonDraco src materials textures).texCoords1.length =
          (extractMeshNonDraco src materials textures).vertices.length)) ∧
    (∀ dm : DracoMeshModel,
      ((extractMeshDraco dm).vertices ≠ [] →
        (extractMeshDraco dm).vertices.length = dm.numPoints) ∧
      ((extractMeshDraco dm).normals ≠ [] →
        (extractMeshDraco dm).normals.length = dm.numPoints) ∧
      ((extractMeshDraco dm).texCoords ≠ [] →
        (extractMeshDraco dm).texCoords.length = dm.numPoints) ∧
      ((extractMeshDraco dm).texCoords1 ≠ [] →
        (extractMeshDraco dm).texCoords1.length = dm.numPoints) ∧
      ((extractMeshDraco dm).colors ≠ [] →
        (extractMeshDraco dm).colors.length = dm.numPoints)) := by
  constructor
  · intro src materials textures
    obtain ⟨h1, h2, h3, h4⟩ := extractMeshNonDraco_lenInv src materials textures
    dsimp only at h1 h2 h3 h4
    refine ⟨fun _ => h1, fun _ => h2, ?_, ?_⟩
    · intro hne
      by_cases hcol : 1 < src.colors.length
      · rw [if_pos hcol] at h3
        exact h3
      · rw [if_neg hcol] at h3
        exact absurd (List.eq_nil_of_length_eq_zero h3) hne
    · intro hne
      by_cases ht : 1 < src.attributes.length
      · rw [if_pos ht] at h4
        exact h4
      · rw [if_neg ht] at h4
        exact absurd (List.eq_nil_of_length_eq_zero h4) hne
  · intro dm
    refine ⟨?_, ?_, ?_, ?_, ?_⟩ <;> intro hne <;> simp only [extractMeshDraco] at hne ⊢
    · cases hp : dm.position with
      | some f => simp [hp]
      | none => simp [hp] at hne
    · cases hp : dm.normal with
      | some f => simp [hp]
      | none => simp [hp] at hne
    · cases hp : dm.texCoord with
      | some f => simp [hp]
      | none => simp [hp] at hne
    · cases hp : dm.texCoord1 with
      | some f => simp [hp]
      | none => simp [hp] at hne
    · cases hp : dm.color with
      | some f => simp [hp]
      | none => simp [hp] at hne

/-- A small decoded Draco mesh for the C8 witness. -/
def c8draco : DracoMeshModel :=
  { numPoints := 2,
    position := some (fun i => ⟨(i : Int), 0, 0⟩),
    normal := some (fun _ => ⟨0, 0, 1⟩),
    texCoord := none, texCoord1 := none, color := none,
    faces := [(0, 1, 1)], matTex := none }

theorem c8_array_length_invariant_witness :
    (extractMeshNonDraco quadScenarioSrc [] []).normals.length =
      (extractMeshNonDraco quadScenarioSrc [] []).vertices.length ∧
    (extractMeshDraco c8draco).normals.length = c8draco.numPoints :=
  ⟨(c8_array_length_invariant.1 quadScenarioSrc [] []).1 (by decide),
   ((c8_array_length_invariant.2 c8draco).2.1) (by decide)⟩

/-! ### GPU buffer assembly (FBXReader::buildModelMesh) -/

/-- gpu scalar types appearing in the attached element formats. -/
inductive GpuScalar
  | float
  | uint8
  | uint16
  | nuint8
  | uint32
  deriving DecidableEq, Repr

/-- gpu::Element: component count and scalar type. -/
structure GpuElement where
  dim : Nat
  scalar : GpuScalar
  deriving DecidableEq, Repr

/-- model::BufferView into the combined attribute buffer: byte offset,
byte size, element format. -/
structure BufferView where
  offset : Nat
  size : Nat
  elem : GpuElement
  deriving DecidableEq, Repr

/-- gpu::Stream attribute slots used by buildModelMesh. -/
inductive Semantic
  | NORMAL
  | TANGENT
  | COLOR
  | TEXCOORD
  | TEXCOORD1
  | SKIN_CLUSTER_INDEX
  | SKIN_CLUSTER_WEIGHT
  deriving DecidableEq, Repr

/-- The FBXMesh fields buildModelMesh reads.  clusters is the count of
FBXCluster entries (only its size is consulted). -/
structure FBXMesh where
  vertices : List Vec3
  normals : List Vec3
  tangents : List Vec3
  colors : List Vec3
  texCoords : List Vec2
  texCoords1 : List Vec2
  clusterIndices : List Int
  clusterWeights : List Int
  clusters : Nat
  parts : List FBXMeshPart
  deriving DecidableEq, Repr

/-- Attribute byte sizes (buildModelMesh lines 555-566).
sizeof(glm::vec3) = 12, sizeof(glm::vec2) = 8, sizeof(uint8_t) = 1;
cluster indices double to 2 bytes each when clusters.size() > UINT8_MAX
(255). -/
def normalsSize (m : FBXMesh) : Nat := m.normals.length * 12

def tangentsSize (m : FBXMesh) : Nat := m.tangents.length * 12

def colorsSize (m : FBXMesh) : Nat := m.colors.length * 12

def texCoordsSize (m : FBXMesh) : Nat := m.texCoords.length * 8

def texCoords1Size (m : FBXMesh) : Nat := m.texCoords1.length * 8

def clusterIndicesSize (m : FBXMesh) : Nat :=
  if 255 < m.clusters then m.clusterIndices.length * 1 * 2 else m.clusterIndices.length * 1

def clusterWeightsSize (m : FBXMesh) : Nat := m.clusterWeights.length * 1

/-- Attribute byte offsets (buildModelMesh lines 568-575): each offset is
the previous offset plus the previous size. -/
def normalsOffset (_ : FBXMesh) : Nat := 0

def tangentsOffset (m : FBXMesh) : Nat := normalsOffset m + normalsSize m

def colorsOffset (m : FBXMesh) : Nat := tangentsOffset m + tangentsSize m

def texCoordsOffset (m : FBXMesh) : Nat := colorsOffset m + colorsSize m

def texCoords1Offset (m : FBXMesh) : Nat := texCoordsOffset m + texCoordsSize m

def clusterIndicesOffset (m : FBXMesh) : Nat := texCoords1Offset m + texCoords1Size m

def clusterWeightsOffset (m : FBXMesh) : Nat := clusterIndicesOffset m + clusterIndicesSize m

def totalAttributeSize (m : FBXMesh) : Nat := clusterWeightsOffset m + clusterWeightsSize m

/-- The attributes attached to the mesh (buildModelMesh lines 601-646),
in attachment order; every attach is guarded by a nonzero byte size,
except TEXCOORD1 which falls back to UV0's region when its own size is
zero but UV0's is not. -/
def meshAttributes (m : FBXMesh) : List (Semantic × BufferView) :=
  (if normalsSize m ≠ 0 then
    [(Semantic.NORMAL, ⟨normalsOffset m, normalsSize m, ⟨3, GpuScalar.float⟩⟩)] else []) ++
  ((if tangentsSize m ≠ 0 then
    [(Semantic.TANGENT, ⟨tangentsOffset m, tangentsSize m, ⟨3, GpuScalar.float⟩⟩)] else []) ++
  ((if colorsSize m ≠ 0 then
    [(Semantic.COLOR, ⟨colorsOffset m, colorsSize m, ⟨3, GpuScalar.float⟩⟩)] else []) ++
  ((if texCoordsSize m ≠ 0 then
    [(Semantic.TEXCOORD, ⟨texCoordsOffset m, texCoordsSize m, ⟨2, GpuScalar.float⟩⟩)]
   else []) ++
  ((if texCoords1Size m ≠ 0 then
    [(Semantic.TEXCOORD1, ⟨texCoords1Offset m, texCoords1Size m, ⟨2, GpuScalar.float⟩⟩)]
   else if texCoordsSize m ≠ 0 then
    [(Semantic.TEXCOORD1, ⟨texCoordsOffset m, texCoordsSize m, ⟨2, GpuScalar.float⟩⟩)]
   else []) ++
  ((if clusterIndicesSize m ≠ 0 then
    (if m.clusters < 255 then
      [(Semantic.SKIN_CLUSTER_INDEX,
        ⟨clusterIndicesOffset m, clusterIndicesSize m, ⟨4, GpuScalar.uint8⟩⟩)]
     else
      [(Semantic.SKIN_CLUSTER_INDEX,
        ⟨clusterIndicesOffset m, clusterIndicesSize m, ⟨4, GpuScalar.uint16⟩⟩)])
   else []) ++
  (if clusterWeightsSize m ≠ 0 then
    [(Semantic.SKIN_CLUSTER_WEIGHT,
      ⟨clusterWeightsOffset m, clusterWeightsSize m, ⟨4, GpuScalar.nuint8⟩⟩)] else []))))))

/-- The sum of quad-triangle and ordinary triangle indices over all
parts (buildModelMesh lines 529-532 and 649-652 compute the same
value). -/
def totalIndexCount (parts : List FBXMeshPart) : Nat :=
  (parts.map (fun p => p.quadTrianglesIndices.length + p.triangleIndices.length)).sum

/-- The per-part (startIndex, numIndices) ranges (buildModelMesh lines
662-691): startIndex is the running index count at loop entry; the two
guarded additions contribute the quad-triangle then the triangle index
counts. -/
def buildParts : List FBXMeshPart → Nat → List (Nat × Nat)
  | [], _ => []
  | p :: rest, indexNum =>
      let qAdd := if p.quadTrianglesIndices.length ≠ 0 then p.quadTrianglesIndices.length
                  else 0
      let tAdd := if p.triangleIndices.length ≠ 0 then p.triangleIndices.length else 0
      (indexNum, qAdd + tAdd) :: buildParts rest (indexNum + qAdd + tAdd)

/-- The mesh the happy path of buildModelMesh constructs: position
buffer size, combined attribute buffer size, attached attributes, index
buffer size (sizeof(int) = 4 per index), part ranges. -/
structure BuiltMesh where
  vertexBufferSize : Nat
  totalAttrSize : Nat
  attributes : List (Semantic × BufferView)
  indexBufferSize : Nat
  parts : List (Nat × Nat)
  deriving DecidableEq, Repr

def buildLayout (m : FBXMesh) : BuiltMesh :=
  { vertexBufferSize := m.vertices.length * 12,
    totalAttrSize := totalAttributeSize m,
    attributes := meshAttributes m,
    indexBufferSize := totalIndexCount m.parts * 4,
    parts := buildParts m.parts 0 }

/-- Which early-return diagnostic fired. -/
inductive FailStage
  | noIndicesEarly
  | noVertices
  | noIndicesLate
  | noParts
  deriving DecidableEq, Repr

/-- The observable outcome of buildModelMesh: either a diagnostic log
line and no mesh (the _mesh member stays unset), or the built mesh.
The embedding is a total function: the C++ body performs no throwing
operation on these paths. -/
inductive BuildOutcome
  | failure (stage : FailStage) (log : String)
  | built (m : BuiltMesh)
  deriving DecidableEq, Repr

/-- FBXReader::buildModelMesh (lines 526-710): the two leading
validations (total source indices, vertex count), the layout and
attachment phase, the recomputed total index check, and the final part
list check before the mesh is set. -/
def buildModelMesh (m : FBXMesh) (url : String) : BuildOutcome :=
  if totalIndexCount m.parts = 0 then
    .failure .noIndicesEarly ("buildModelMesh failed -- no indices, url =  " ++ url)
  else if m.vertices.length = 0 then
    .failure .noVertices ("buildModelMesh failed -- no vertices, url =  " ++ url)
  else if totalIndexCount m.parts = 0 then
    .failure .noIndicesLate ("buildModelMesh failed -- no indices, url =  " ++ url)
  else if (buildParts m.parts 0).length ≠ 0 then
    .built (buildLayout m)
  else
    .failure .noParts ("buildModelMesh failed -- no parts, url =  " ++ url)

/-- QHash-free lookup of an attached attribute by slot. -/
def findAttr (attrs : List (Semantic × BufferView)) (s : Semantic) : Option BufferView :=
  match attrs.find? (fun p => decide (p.1 = s)) with
  | some p => some p.2
  | none => none

def attrView (b : BuiltMesh) (s : Semantic) : Option BufferView :=
  findAttr b.attributes s

def hasAttr (b : BuiltMesh) (s : Semantic) : Bool := (attrView b s).isSome

/-- The mesh the caller receives: none on every failure path. -/
def builtMesh : BuildOutcome → Option BuiltMesh
  | .built m => some m
  | .failure _ _ => none

/-- True exactly on the two late failure branches (the second no-indices
check and the no-parts check). -/
def lateFailure : BuildOutcome → Bool
  | .failure .noIndicesLate _ => true
  | .failure .noParts _ => true
  | _ => false

/-- Reading a buffer view region byte by byte out of a buffer. -/
def readRegion (buf : Nat → Int) (v : BufferView) : List Int :=
  (List.range v.size).map (fun i => buf (v.offset + i))

lemma buildParts_length : ∀ (parts : List FBXMeshPart) (n : Nat),
    (buildParts parts n).length = parts.length := by
  intro parts
  induction parts with
  | nil => intro n; rfl
  | cons p rest ih => intro n; simp only [buildParts]; simp [ih]

lemma built_imp (m : FBXMesh) (url : String) (b : BuiltMesh)
    (h : buildModelMesh m url = .built b) :
    totalIndexCount m.parts ≠ 0 ∧ m.vertices.length ≠ 0 ∧ b = buildLayout m := by
  unfold buildModelMesh at h
  by_cases h1 : totalIndexCount m.parts = 0
  · rw [if_pos h1] at h; cases h
  · rw [if_neg h1, if_neg h1] at h
    by_cases h2 : m.vertices.length = 0
    · rw [if_pos h2] at h; cases h
    · rw [if_neg h2] at h
      by_cases h3 : (buildParts m.parts 0).length ≠ 0
      · rw [if_pos h3] at h
        cases h
        exact ⟨h1, h2, rfl⟩
      · rw [if_neg h3] at h; cases h

lemma findAttr_normal (m : FBXMesh) :
    findAttr (meshAttributes m) Semantic.NORMAL =
      (if normalsSize m ≠ 0 then
        some ⟨normalsOffset m, normalsSize m, ⟨3, GpuScalar.float⟩⟩ else none) := by
  unfold findAttr meshAttributes
  split_ifs <;> simp_all [List.find?_append, List.find?]

lemma findAttr_tangent (m : FBXMesh) :
    findAttr (meshAttributes m) Semantic.TANGENT =
      (if tangentsSize m ≠ 0 then
        some ⟨tangentsOffset m, tangentsSize m, ⟨3, GpuScalar.float⟩⟩ else none) := by
  unfold findAttr meshAttributes
  split_ifs <;> simp_all [List.find?_append, List.find?]

lemma findAttr_color (m : FBXMesh) :
    findAttr (meshAttributes m) Semantic.COLOR =
      (if colorsSize m ≠ 0 then
        some ⟨colorsOffset m, colorsSize m, ⟨3, GpuScalar.float⟩⟩ else none) := by
  unfold findAttr meshAttributes
  split_ifs <;> simp_all [List.find?_append, List.find?]

lemma findAttr_texcoord (m : FBXMesh) :
    findAttr (meshAttributes m) Semantic.TEXCOORD =
      (if texCoordsSize m ≠ 0 then
        some ⟨texCoordsOffset m, texCoordsSize m, ⟨2, GpuScalar.float⟩⟩ else none) := by
  unfold findAttr meshAttributes
  split_ifs <;> simp_all [List.find?_append, List.find?]

lemma findAttr_texcoord1 (m : FBXMesh) :
    findAttr (meshAttributes m) Semantic.TEXCOORD1 =
      (if texCoords1Size m ≠ 0 then
        some ⟨texCoords1Offset m, texCoords1Size m, ⟨2, GpuScalar.float⟩⟩
       else if texCoordsSize m ≠ 0 then
        some ⟨texCoordsOffset m, texCoordsSize m, ⟨2, GpuScalar.float⟩⟩
       else none) := by
  unfold findAttr meshAttributes
  split_ifs <;> simp_all [List.find?_append, List.find?]

lemma findAttr_skin_cluster_index (m : FBXMesh) :
    findAttr (meshAttributes m) Semantic.SKIN_CLUSTER_INDEX =
      (if clusterIndicesSize m ≠ 0 then
        some ⟨clusterIndicesOffset m, clusterIndicesSize m,
          ⟨4, if m.clusters < 255 then GpuScalar.uint8 else GpuScalar.uint16⟩⟩
       else none) := by
  unfold findAttr meshAttributes
  split_ifs <;> simp_all [List.find?_append, List.find?]

lemma findAttr_skin_cluster_weight (m : FBXMesh) :
    findAttr (meshAttributes m) Semantic.SKIN_CLUSTER_WEIGHT =
      (if clusterWeightsSize m ≠ 0 then
        some ⟨clusterWeightsOffset m, clusterWeightsSize m, ⟨4, GpuScalar.nuint8⟩⟩
       else none) := by
  unfold findAttr meshAttributes
  split_ifs <;> simp_all [List.find?_append, List.find?]

/-- Mesh with exactly 255 skin clusters and four cluster indices. -/
def c4mesh : FBXMesh :=
  { vertices := [⟨0, 0, 0⟩], normals := [], tangents := [], colors := [], texCoords := [],
    texCoords1 := [], clusterIndices := [0, 0, 0, 0], clusterWeights := [],
    clusters := 255, parts := [⟨[], [], [0, 0, 0]⟩] }

/-- C4 (code bug at exactly 255 clusters): the byte-size computation
doubles the cluster-index region only when clusters.size() > 255
(line 562), but the 8-bit element format is attached only when
clusters.size() < 255 (lines 586 and 632).  With exactly 255 distinct
clusters and 4 cluster indices, the computed region is 4 bytes — 1 byte
per index — while the attached element format is 16-bit unsigned, so
the single decision the claim describes does not govern both. -/
theorem c4_cluster_width_inconsistent_at_255 :
    c4mesh.clusters = 255 ∧
    clusterIndicesSize c4mesh = c4mesh.clusterIndices.length * 1 ∧
    buildModelMesh c4mesh "url" = .built (buildLayout c4mesh) ∧
    attrView (buildLayout c4mesh) Semantic.SKIN_CLUSTER_INDEX =
      some ⟨clusterIndicesOffset c4mesh, clusterIndicesSize c4mesh,
        ⟨4, GpuScalar.uint16⟩⟩ :=
  ⟨rfl, by decide, by decide, by decide⟩

/-- Mesh with UV0 present and UV1 absent that passes validation. -/
def c5mesh : FBXMesh :=
  { vertices := [⟨0, 0, 0⟩], normals := [], tangents := [], colors := [],
    texCoords := [⟨0, 0⟩], texCoords1 := [], clusterIndices := [], clusterWeights := [],
    clusters := 0, parts := [⟨[], [], [0, 0, 0]⟩] }

/-- C5 counterexample: the claim states that an attribute whose source
array is empty has no attribute attached for it, but for c5mesh the
UV1 source array is empty and a TEXCOORD1 attribute is attached anyway
(aliased to UV0's region, buildModelMesh lines 625-629). -/
theorem c5_counterexample_empty_uv1_still_attached :
    c5mesh.texCoords1 = [] ∧
    buildModelMesh c5mesh "url" = .built (buildLayout c5mesh) ∧
    hasAttr (buildLayout c5mesh) Semantic.TEXCOORD1 = true :=
  ⟨rfl, by decide, by decide⟩

/-- C5 (amended): for every mesh that passes validation the attributes
are laid out in the fixed order normal, tangent, color, UV0, UV1,
skin-cluster index, skin-cluster weight, each attribute's byte offset is
the sum of the byte sizes of all preceding attributes, and an attribute
whose source array is empty contributes zero bytes and is not attached —
with one exception: when UV1 is empty but UV0 is not, a TEXCOORD1
attribute is still attached, aliasing UV0's buffer region. -/
theorem c5_attribute_layout_amended (m : FBXMesh) (url : String) (b : BuiltMesh)
    (h : buildModelMesh m url = .built b) :
    (tangentsOffset m = normalsOffset m + normalsSize m ∧
     colorsOffset m = normalsOffset m + normalsSize m + tangentsSize m ∧
     texCoordsOffset m = normalsOffset m + normalsSize m + tangentsSize m + colorsSize m ∧
     texCoords1Offset m = normalsOffset m + normalsSize m + tangentsSize m + colorsSize m +
       texCoordsSize m ∧
     clusterIndicesOffset m = normalsOffset m + normalsSize m + tangentsSize m +
       colorsSize m + texCoordsSize m + texCoords1Size m ∧
     clusterWeightsOffset m = normalsOffset m + normalsSize m + tangentsSize m +
       colorsSize m + texCoordsSize m + texCoords1Size m + clusterIndicesSize m ∧
     b.totalAttrSize = normalsOffset m + normalsSize m + tangentsSize m + colorsSize m +
       texCoordsSize m + texCoords1Size m + clusterIndicesSize m + clusterWeightsSize m) ∧
    (m.normals = [] → normalsSize m = 0 ∧ attrView b Semantic.NORMAL = none) ∧
    (m.tangents = [] → tangentsSize m = 0 ∧ attrView b Semantic.TANGENT = none) ∧
    (m.colors = [] → colorsSize m = 0 ∧ attrView b Semantic.COLOR = none) ∧
    (m.texCoords = [] → texCoordsSize m = 0 ∧ attrView b Semantic.TEXCOORD = none) ∧
    (m.clusterIndices = [] → clusterIndicesSize m = 0 ∧
      attrView b Semantic.SKIN_CLUSTER_INDEX = none) ∧
    (m.clusterWeights = [] → clusterWeightsSize m = 0 ∧
      attrView b Semantic.SKIN_CLUSTER_WEIGHT = none) ∧
    (m.texCoords1 = [] → texCoords1Size m = 0 ∧
      (m.texCoords = [] → attrView b Semantic.TEXCOORD1 = none) ∧
      (m.texCoords ≠ [] → attrView b Semantic.TEXCOORD1 =
        some ⟨texCoordsOffset m, texCoordsSize m, ⟨2, GpuScalar.float⟩⟩)) := by
  obtain ⟨-, -, rfl⟩ := built_imp m url b h
  refine ⟨⟨rfl, rfl, rfl, rfl, rfl, rfl, rfl⟩, ?_, ?_, ?_, ?_, ?_, ?_, ?_⟩
  · intro he
    have hz : normalsSize m = 0 := by simp [normalsSize, he]
    refine ⟨hz, ?_⟩
    show findAttr (meshAttributes m) Semantic.NORMAL = none
    rw [findAttr_normal, if_neg (by omega)]
  · intro he
    have hz : tangentsSize m = 0 := by simp [tangentsSize, he]
    refine ⟨hz, ?_⟩
    show findAttr (meshAttributes m) Semantic.TANGENT = none
    rw [findAttr_tangent, if_neg (by omega)]
  · intro he
    have hz : colorsSize m = 0 := by simp [colorsSize, he]
    refine ⟨hz, ?_⟩
    show findAttr (meshAttributes m) Semantic.COLOR = none
    rw [findAttr_color, if_neg (by omega)]
  · intro he
    have hz : texCoordsSize m = 0 := by simp [texCoordsSize, he]
    refine ⟨hz, ?_⟩
    show findAttr (meshAttributes m) Semantic.TEXCOORD = none
    rw [findAttr_texcoord, if_neg (by omega)]
  · intro he
    have hz : clusterIndicesSize m = 0 := by
      unfold clusterIndicesSize
      split <;> simp [he]
    refine ⟨hz, ?_⟩
    show findAttr (meshAttributes m) Semantic.SKIN_CLUSTER_INDEX = none
    rw [findAttr_skin_cluster_index, if_neg (by omega)]
  · intro he
    have hz : clusterWeightsSize m = 0 := by simp [clusterWeightsSize, he]
    refine ⟨hz, ?_⟩
    show findAttr (meshAttributes m) Semantic.SKIN_CLUSTER_WEIGHT = none
    rw [findAttr_skin_cluster_weight, if_neg (by omega)]
  · intro he
    have hz : texCoords1Size m = 0 := by simp [texCoords1Size, he]
    refine ⟨hz, ?_, ?_⟩
    · intro he0
      have hz0 : texCoordsSize m = 0 := by simp [texCoordsSize, he0]
      show findAttr (meshAttributes m) Semantic.TEXCOORD1 = none
      rw [findAttr_texcoord1, if_neg (by omega), if_neg (by omega)]
    · intro hne
      have hnz : texCoordsSize m ≠ 0 := by
        unfold texCoordsSize
        have : m.texCoords.length ≠ 0 := fun hl => hne (List.eq_nil_of_length_eq_zero hl)
        omega
      show findAttr (meshAttributes m) Semantic.TEXCOORD1 =
        some ⟨texCoordsOffset m, texCoordsSize m, ⟨2, GpuScalar.float⟩⟩
      rw [findAttr_texcoord1, if_neg (by omega), if_pos hnz]

theorem c5_attribute_layout_amended_witness :
    buildModelMesh c5mesh "url" = .built (buildLayout c5mesh) ∧
    attrView (buildLayout c5mesh) Semantic.TEXCOORD1 =
      some ⟨texCoordsOffset c5mesh, texCoordsSize c5mesh, ⟨2, GpuScalar.float⟩⟩ :=
  ⟨by decide,
   (((c5_attribute_layout_amended c5mesh "url" (buildLayout c5mesh)
       (by decide)).2.2.2.2.2.2.2) rfl).2.2 (by decide)⟩

/-- Mesh with normals, colors and UV0 present but UV1 absent. -/
def c6mesh : FBXMesh :=
  { vertices := [⟨0, 0, 0⟩], normals := [⟨0, 0, 1⟩], tangents := [], colors := [⟨1, 1, 1⟩],
    texCoords := [⟨0, 0⟩], texCoords1 := [], clusterIndices := [], clusterWeights := [],
    clusters := 0, parts := [⟨[], [], [0, 0, 0]⟩] }

/-- C6: UV1 aliasing round trip.  For every built mesh whose UV0 source
array is non-empty and whose UV1 source array is empty, a TEXCOORD1
attribute is attached and its buffer view is exactly UV0's region (same
offset, same size, same element format) — identical to the TEXCOORD
view — so reading the UV1 region of the attribute buffer returns, byte
for byte, the UV0 region. -/
theorem c6_uv1_alias_roundtrip (m : FBXMesh) (url : String) (b : BuiltMesh)
    (h : buildModelMesh m url = .built b) (huv0 : m.texCoords ≠ [])
    (huv1 : m.texCoords1 = []) :
    attrView b Semantic.TEXCOORD1 =
      some ⟨texCoordsOffset m, texCoordsSize m, ⟨2, GpuScalar.float⟩⟩ ∧
    attrView b Semantic.TEXCOORD1 = attrView b Semantic.TEXCOORD ∧
    (∀ buf : Nat → Int,
      Option.map (readRegion buf) (attrView b Semantic.TEXCOORD1) =
        Option.map (readRegion buf) (attrView b Semantic.TEXCOORD)) := by
  obtain ⟨-, -, rfl⟩ := built_imp m url b h
  have hz1 : texCoords1Size m = 0 := by simp [texCoords1Size, huv1]
  have hnz : texCoordsSize m ≠ 0 := by
    unfold texCoordsSize
    have : m.texCoords.length ≠ 0 := fun hl => huv0 (List.eq_nil_of_length_eq_zero hl)
    omega
  have h1 : attrView (buildLayout m) Semantic.TEXCOORD1 =
      some ⟨texCoordsOffset m, texCoordsSize m, ⟨2, GpuScalar.float⟩⟩ := by
    show findAttr (meshAttributes m) Semantic.TEXCOORD1 = _
    rw [findAttr_texcoord1, if_neg (by omega), if_pos hnz]
  have h0 : attrView (buildLayout m) Semantic.TEXCOORD =
      some ⟨texCoordsOffset m, texCoordsSize m, ⟨2, GpuScalar.float⟩⟩ := by
    show findAttr (meshAttributes m) Semantic.TEXCOORD = _
    rw [findAttr_texcoord, if_pos hnz]
  refine ⟨h1, by rw [h1, h0], ?_⟩
  intro buf
  rw [h1, h0]

theorem c6_uv1_alias_roundtrip_witness :
    attrView (buildLayout c6mesh) Semantic.TEXCOORD1 =
      some ⟨texCoordsOffset c6mesh, texCoordsSize c6mesh, ⟨2, GpuScalar.float⟩⟩ :=
  (c6_uv1_alias_roundtrip c6mesh "url" (buildLayout c6mesh) (by decide) (by decide)
    (by decide)).1

/-- C7: empty-mesh rejection with unchanged output.  When the total
quad-triangle plus triangle index count over all parts is zero,
buildModelMesh logs the no-indices diagnostic keyed by the url and
returns with the mesh unset; otherwise when the vertex array is empty it
logs the no-vertices diagnostic and returns with the mesh unset.  The
two implications cover every non-empty/empty combination of the two
conditions, and the embedding is a total function (the C++ path
performs no throwing operation). -/
theorem c7_empty_mesh_rejection (m : FBXMesh) (url : String) :
    (totalIndexCount m.parts = 0 →
      buildModelMesh m url = .failure FailStage.noIndicesEarly
        ("buildModelMesh failed -- no indices, url =  " ++ url) ∧
      builtMesh (buildModelMesh m url) = none) ∧
    (totalIndexCount m.parts ≠ 0 → m.vertices.length = 0 →
      buildModelMesh m url = .failure FailStage.noVertices
        ("buildModelMesh failed -- no vertices, url =  " ++ url) ∧
      builtMesh (buildModelMesh m url) = none) := by
  constructor
  · intro h0
    have heq : buildModelMesh m url = .failure FailStage.noIndicesEarly
        ("buildModelMesh failed -- no indices, url =  " ++ url) := by
      unfold buildModelMesh
      rw [if_pos h0]
    exact ⟨heq, by rw [heq]; rfl⟩
  · intro h0 hv
    have heq : buildModelMesh m url = .failure FailStage.noVertices
        ("buildModelMesh failed -- no vertices, url =  " ++ url) := by
      unfold buildModelMesh
      rw [if_neg h0, if_pos hv]
    exact ⟨heq, by rw [heq]; rfl⟩

/-- Meshes exercising the no-indices and no-vertices rejections. -/
def c7meshNoIndices : FBXMesh :=
  { vertices := [⟨0, 0, 0⟩], normals := [], tangents := [], colors := [], texCoords := [],
    texCoords1 := [], clusterIndices := [], clusterWeights := [], clusters := 0, parts := [] }

def c7meshNoVertices : FBXMesh :=
  { vertices := [], normals := [], tangents := [], colors := [], texCoords := [],
    texCoords1 := [], clusterIndices := [], clusterWeights := [], clusters := 0,
    parts := [⟨[], [], [0, 0, 0]⟩] }

theorem c7_empty_mesh_rejection_witness :
    builtMesh (buildModelMesh c7meshNoIndices "u") = none ∧
    builtMesh (buildModelMesh c7meshNoVertices "u") = none :=
  ⟨((c7_empty_mesh_rejection c7meshNoIndices "u").1 (by decide)).2,
   ((c7_empty_mesh_rejection c7meshNoVertices "u").2 (by decide) (by decide)).2⟩

/-- C9: the late failure branches of buildModelMesh are unreachable:
every call either returns at the leading no-indices/no-vertices checks
or builds the mesh — the recomputed no-indices check and the no-parts
check never fire, because the second total equals the first and a
nonzero total forces a non-empty part list, whose part-range list has
the same length. -/
theorem c9_late_failures_unreachable (m : FBXMesh) (url : String) :
    lateFailure (buildModelMesh m url) = false := by
  unfold buildModelMesh
  by_cases h1 : totalIndexCount m.parts = 0
  · rw [if_pos h1]; rfl
  · rw [if_neg h1, if_neg h1]
    by_cases h2 : m.vertices.length = 0
    · rw [if_pos h2]; rfl
    · rw [if_neg h2]
      have hparts : m.parts ≠ [] := fun hp => h1 (by rw [hp]; rfl)
      have hlen : (buildParts m.parts 0).length ≠ 0 := by
        rw [buildParts_length]
        intro hl
        exact hparts (List.eq_nil_of_length_eq_zero hl)
      rw [if_pos hlen]
      rfl

/-- Assemble the FBXMesh handed to buildModelMesh from an extraction
result plus the fields produced elsewhere (tangents, skin clusters). -/
def mkFBXMesh (e : ExtractedMeshModel) (tangents : List Vec3)
    (clusterIndices clusterWeights : List Int) (clusters : Nat) : FBXMesh :=
  { vertices := e.vertices, normals := e.normals, tangents := tangents, colors := e.colors,
    texCoords := e.texCoords, texCoords1 := e.texCoords1, clusterIndices := clusterIndices,
    clusterWeights := clusterWeights, clusters := clusters, parts := e.parts }

/-- C10: the non-compressed extraction path appends a normal and a
primary UV for every new output vertex unconditionally, so the normals
and primary-UV arrays always have length equal to the vertex count and
are non-empty whenever at least one vertex exists; consequently a
built GPU mesh made from such an extraction always carries NORMAL,
TEXCOORD and (via aliasing when UV1 is empty) TEXCOORD1 attributes. -/
theorem c10_normals_uv_always_populated :
    (∀ (src : MeshSource) (materials textures : List Int),
      (extractMeshNonDraco src materials textures).normals.length =
        (extractMeshNonDraco src materials textures).vertices.length ∧
      (extractMeshNonDraco src materials textures).texCoords.length =
        (extractMeshNonDraco src materials textures).vertices.length ∧
      ((extractMeshNonDraco src materials textures).vertices ≠ [] →
        (extractMeshNonDraco src materials textures).normals ≠ [] ∧
        (extractMeshNonDraco src materials textures).texCoords ≠ [])) ∧
    (∀ (src : MeshSource) (materials textures : List Int) (tangents : List Vec3)
        (clusterIndices clusterWeights : List Int) (clusters : Nat) (url : String)
        (b : BuiltMesh),
      buildModelMesh (mkFBXMesh (extractMeshNonDraco src materials textures) tangents
        clusterIndices clusterWeights clusters) url = .built b →
      hasAttr b Semantic.NORMAL = true ∧ hasAttr b Semantic.TEXCOORD = true ∧
        hasAttr b Semantic.TEXCOORD1 = true) := by
  have hlen : ∀ (src : MeshSource) (materials textures : List Int),
      (extractMeshNonDraco src materials textures).normals.length =
        (extractMeshNonDraco src materials textures).vertices.length ∧
      (extractMeshNonDraco src materials textures).texCoords.length =
        (extractMeshNonDraco src materials textures).vertices.length := by
    intro src materials textures
    obtain ⟨h1, h2, -, -⟩ := extractMeshNonDraco_lenInv src materials textures
    exact ⟨h1, h2⟩
  constructor
  · intro src materials textures
    obtain ⟨h1, h2⟩ := hlen src materials textures
    refine ⟨h1, h2, ?_⟩
    intro hv
    have hvl : (extractMeshNonDraco src materials textures).vertices.length ≠ 0 :=
      fun hl => hv (List.eq_nil_of_length_eq_zero hl)
    constructor
    · intro hn
      apply hvl
      rw [← h1, hn]
      rfl
    · intro hn
      apply hvl
      rw [← h2, hn]
      rfl
  · intro src materials textures tangents clusterIndices clusterWeights clusters url b h
    obtain ⟨-, hv, rfl⟩ := built_imp _ url b h
    set mm := mkFBXMesh (extractMeshNonDraco src materials textures) tangents
      clusterIndices clusterWeights clusters with hmm
    obtain ⟨h1, h2⟩ := hlen src materials textures
    have hvl : mm.vertices.length ≠ 0 := hv
    have hnz : normalsSize mm ≠ 0 := by
      unfold normalsSize
      have : mm.normals.length = mm.vertices.length := h1
      omega
    have htz : texCoordsSize mm ≠ 0 := by
      unfold texCoordsSize
      have : mm.texCoords.length = mm.vertices.length := h2
      omega
    refine ⟨?_, ?_, ?_⟩
    · show (findAttr (meshAttributes mm) Semantic.NORMAL).isSome = true
      rw [findAttr_normal, if_pos hnz]
      rfl
    · show (findAttr (meshAttributes mm) Semantic.TEXCOORD).isSome = true
      rw [findAttr_texcoord, if_pos htz]
      rfl
    · show (findAttr (meshAttributes mm) Semantic.TEXCOORD1).isSome = true
      rw [findAttr_texcoord1]
      by_cases h1z : texCoords1Size mm ≠ 0
      · rw [if_pos h1z]
        rfl
      · rw [if_neg h1z, if_pos htz]
        rfl

theorem c10_normals_uv_always_populated_witness :
    ((extractMeshNonDraco quadScenarioSrc [] []).normals ≠ [] ∧
      (extractMeshNonDraco quadScenarioSrc [] []).texCoords ≠ []) ∧
    hasAttr (buildLayout (mkFBXMesh (extractMeshNonDraco quadScenarioSrc [] []) [] [] [] 0))
      Semantic.TEXCOORD1 = true :=
  ⟨(c10_normals_uv_always_populated.1 quadScenarioSrc [] []).2.2 (by decide),
   (c10_normals_uv_always_populated.2 quadScenarioSrc [] [] [] [] [] 0 "u"
     (buildLayout (mkFBXMesh (extractMeshNonDraco quadScenarioSrc [] []) [] [] [] 0))
     (by decide)).2.2⟩
